import Mathlib

/-!
Verification of the workoutTracker REST API server (src/server/index.js).

The server is a set of Express route handlers over a PostgreSQL pool.  We
shallowly embed the database as lists of rows (list order models physical
insertion order, which is the order an unordered SELECT returns here), and
each route handler as a pure function from a request body and a database to
a response and an updated database.  Conventions:

* SQL NULL-able integer columns are `Option Int`; JS/SQL numbers that occur
  in the claims are integers, so numbers are modeled as `Int`.
* Dates handled by the calendar route are modeled as epoch day numbers
  (days since 1970-01-01 UTC); the ISO string rendering of a day number is
  not modeled, only its day value.
* Generated primary keys are drawn from a `nextId` counter in the database
  state.
-/

namespace WT

/-- Nullable SQL integer column. -/
abbrev NInt := Option Int

/-- A row of `exercises`. -/
structure ExerciseRow where
  id : Int
  name : String
  deriving DecidableEq

/-- A row of `workout_templates`. -/
structure TemplateRow where
  id : Int
  name : String
  deriving DecidableEq

/-- A row of `workout_template_exercises`. -/
structure TemplateExerciseRow where
  id : Int
  workout_template_id : Int
  exercise_id : Int
  sort_order : Int
  target_sets : NInt
  target_reps : Option String
  notes : Option String
  deriving DecidableEq

/-- A row of `workout_plans`. -/
structure PlanRow where
  id : Int
  name : String
  base_template_id : Int
  deriving DecidableEq

/-- A row of `workout_plan_exercises`. -/
structure PlanExerciseRow where
  id : Int
  plan_id : Int
  exercise_id : Int
  sort_order : Int
  target_sets : NInt
  target_reps : NInt
  target_weight : NInt
  notes : Option String
  deriving DecidableEq

/-- A row of `workout_sessions`. -/
structure SessionRow where
  id : Int
  workout_template_id : NInt
  plan_id : NInt
  workout_calendar_id : NInt
  performed_on : String
  deriving DecidableEq

/-- A row of `exercise_sets` (the generated key is irrelevant to the claims). -/
structure SetRow where
  session_id : Int
  exercise_id : Int
  set_number : Int
  weight : NInt
  reps : NInt
  rpe : NInt
  deriving DecidableEq

/-- A row of `workout_calendar`; `planned_on` is an epoch day number. -/
structure CalendarRow where
  id : Int
  planned_on : Int
  workout_plan_id : Int
  workout_template_id : Int
  deriving DecidableEq

/-- The whole database. -/
structure Db where
  exercises : List ExerciseRow
  workout_templates : List TemplateRow
  workout_template_exercises : List TemplateExerciseRow
  workout_plans : List PlanRow
  workout_plan_exercises : List PlanExerciseRow
  workout_sessions : List SessionRow
  exercise_sets : List SetRow
  workout_calendar : List CalendarRow
  nextId : Int
  deriving DecidableEq

/-- HTTP responses of the routes under study.  Payloads are kept only to the
extent the claims mention them; routes that answer with a freshly reloaded
template or plan payload are summarized by `okData`. -/
inductive Resp where
  | ok
  | okBulk (inserted : Nat)
  | okSession (session_id : Int) (workout_template_id : NInt) (plan_id : NInt)
  | okCalendar (week_start : Int) (items : List CalendarRow)
  | okImport (dry_run : Bool) (plans_created plans_updated exercises_inserted : Nat)
  | okData
  | badRequest
  | notFound
  | conflict
  | serverError
  | unhandled
  deriving DecidableEq

/-- JS truthiness of a number parsed by `asInt` (src/server/index.js:30):
`null`, an absent field and a non-numeric value are `none`, and `0` is falsy. -/
def truthy : Option Int → Bool
  | none => false
  | some n => n != 0

/-- One element of the `sets` array sent to `POST /api/sets/bulk`; the
handler feeds each field through `Number(...)` so elements are numeric. -/
structure SetIn where
  set_number : Int
  weight : NInt
  reps : NInt
  rpe : NInt
  deriving DecidableEq

/-- The row inserted for one element of the bulk `sets` array
(src/server/index.js:377-390). -/
def setInRow (s e : Int) (x : SetIn) : SetRow :=
  { session_id := s, exercise_id := e, set_number := x.set_number,
    weight := x.weight, reps := x.reps, rpe := x.rpe }

/-- Body of `POST /api/sets/bulk`; `sets = none` models a non-array value. -/
structure BulkBody where
  session_id : Option Int
  exercise_id : Option Int
  sets : Option (List SetIn)
  deriving DecidableEq

/-- `POST /api/sets/bulk` (src/server/index.js:360-400): validate
truthiness of the ids and that `sets` is an array, then in a transaction
delete every `exercise_sets` row of the (session, exercise) pair and insert
one row per array element, answering with the inserted count. -/
def setsBulk (b : BulkBody) (db : Db) : Resp × Db :=
  match b.session_id, b.exercise_id, b.sets with
  | some s, some e, some sets =>
    if s == 0 || e == 0 then (.badRequest, db)
    else
      let kept := db.exercise_sets.filter
        (fun r => !(r.session_id == s && r.exercise_id == e))
      (.okBulk sets.length,
       { db with exercise_sets := kept ++ sets.map (setInRow s e) })
  | _, _, _ => (.badRequest, db)

/-- A small sample database used by concrete witnesses. -/
def exDb : Db :=
  { exercises := [⟨10, "Squat"⟩, ⟨11, "Bench"⟩, ⟨12, "Row"⟩],
    workout_templates := [⟨1, "Lift A"⟩],
    workout_template_exercises :=
      [⟨100, 1, 10, 1, some 3, some "8", none⟩,
       ⟨101, 1, 11, 2, some 3, some "8", none⟩],
    workout_plans := [⟨2, "P", 1⟩],
    workout_plan_exercises := [⟨3, 2, 10, 1, some 3, some 8, none, none⟩],
    workout_sessions := [⟨7, some 1, some 2, none, "2025-01-06"⟩],
    exercise_sets := [⟨7, 10, 1, some 100, some 5, none⟩,
                      ⟨7, 11, 1, some 60, some 8, some 7⟩],
    workout_calendar := [],
    nextId := 1000 }

/-- `DELETE /api/exercises/:id` (src/server/index.js:551-570): answer 409
when some `workout_template_exercises` row references the exercise, else
delete the `exercises` rows with that id.  `id = none` models a non-numeric
path parameter (the SQL comparison with NULL then matches nothing). -/
def deleteExercise (id : Option Int) (db : Db) : Resp × Db :=
  let used := db.workout_template_exercises.any (fun r => some r.exercise_id == id)
  if used then (.conflict, db)
  else (.ok, { db with exercises := db.exercises.filter (fun x => !(some x.id == id)) })

/-- `DELETE /api/plans/:id` (src/server/index.js:1003-1031): 400 when the
parsed id is falsy; otherwise, in one transaction, null out `plan_id` on the
sessions that reference the plan, delete the plan's
`workout_plan_exercises` rows and delete the plan row. -/
def deletePlan (pid : Option Int) (db : Db) : Resp × Db :=
  match pid with
  | none => (.badRequest, db)
  | some p =>
    if p == 0 then (.badRequest, db)
    else
      let sess := db.workout_sessions.map
        (fun s => if s.plan_id == some p then { s with plan_id := none } else s)
      let wpe := db.workout_plan_exercises.filter (fun r => !(r.plan_id == p))
      let plans := db.workout_plans.filter (fun r => !(r.id == p))
      (.ok, { db with
          workout_sessions := sess,
          workout_plan_exercises := wpe,
          workout_plans := plans })

/-- Body of `POST /api/sessions` after the handler's `asInt` calls: `none`
models an absent, null or non-numeric id field. -/
structure SessionBody where
  workout_template_id : Option Int
  plan_id : Option Int
  workout_calendar_id : Option Int
  performed_on : Option String
  deriving DecidableEq

/-- `POST /api/sessions` (src/server/index.js:174-225).  `today` stands for
`new Date().toISOString().slice(0, 10)`.  The handler 400s when neither or
both of the template/plan ids are truthy, resolves a truthy `plan_id`
against `workout_plans` (404 when absent, 500 when the plan's
`base_template_id` is falsy) and inserts the session row. -/
def startSession (b : SessionBody) (today : String) (db : Db) : Resp × Db :=
  if !(truthy b.workout_template_id) && !(truthy b.plan_id) then (.badRequest, db)
  else if truthy b.workout_template_id && truthy b.plan_id then (.badRequest, db)
  else
    let date := b.performed_on.getD today
    if truthy b.plan_id then
      match db.workout_plans.find? (fun r => some r.id == b.plan_id) with
      | none => (.notFound, db)
      | some plan =>
        if plan.base_template_id == 0 then (.serverError, db)
        else
          let row : SessionRow :=
            ⟨db.nextId, some plan.base_template_id, b.plan_id,
             b.workout_calendar_id, date⟩
          (.okSession db.nextId (some plan.base_template_id) b.plan_id,
           { db with workout_sessions := db.workout_sessions ++ [row],
                     nextId := db.nextId + 1 })
    else
      let row : SessionRow :=
        ⟨db.nextId, b.workout_template_id, b.plan_id, b.workout_calendar_id, date⟩
      (.okSession db.nextId b.workout_template_id b.plan_id,
       { db with workout_sessions := db.workout_sessions ++ [row],
                 nextId := db.nextId + 1 })

/-- The statement `update workout_template_exercises set sort_order = $1::int
where id = $2::int` used by both the move handler and the renumbering loop. -/
def updateSortById (rid v : Int) (l : List TemplateExerciseRow) :
    List TemplateExerciseRow :=
  l.map (fun x => if x.id == rid then { x with sort_order := v } else x)

/-- The move handler's current-row lookup (src/server/index.js:713-720). -/
def findCur (tid eid : Int) (db : Db) : Option TemplateExerciseRow :=
  db.workout_template_exercises.find?
    (fun r => r.workout_template_id == tid && r.exercise_id == eid)

/-- The `direction = "up"` neighbor query: rows of the template with a
smaller `sort_order`, ordered descending, first row
(src/server/index.js:725-738). -/
def neighborUp (tid o : Int) (db : Db) : Option TemplateExerciseRow :=
  (List.insertionSort (fun a b => b.sort_order ≤ a.sort_order)
    (db.workout_template_exercises.filter
      (fun r => r.workout_template_id == tid && decide (r.sort_order < o)))).head?

/-- The `direction = "down"` neighbor query: rows of the template with a
larger `sort_order`, ordered ascending, first row. -/
def neighborDown (tid o : Int) (db : Db) : Option TemplateExerciseRow :=
  (List.insertionSort (fun a b => a.sort_order ≤ b.sort_order)
    (db.workout_template_exercises.filter
      (fun r => r.workout_template_id == tid && decide (o < r.sort_order)))).head?

/-- The two UPDATE statements of the move handler (src/server/index.js:750-757):
give the current row the neighbor's `sort_order` and vice versa. -/
def moveApply (cur nbr : TemplateExerciseRow) (db : Db) : Db :=
  { db with workout_template_exercises :=
      (updateSortById nbr.id cur.sort_order
        (updateSortById cur.id nbr.sort_order db.workout_template_exercises)) }

/-- `POST /api/workout-templates/:id/exercises/:exerciseId/move`
(src/server/index.js:703-770), modeled on its fault-free path: validate the
direction, look up the row, pick the nearest neighbor in that direction
(no neighbor: answer the unchanged template payload), then swap the two
`sort_order` values. -/
def moveExercise (tid eid : Int) (direction : String) (db : Db) : Resp × Db :=
  if !(direction == "up" || direction == "down") then (.badRequest, db)
  else
    match findCur tid eid db with
    | none => (.notFound, db)
    | some cur =>
      match (if direction == "up" then neighborUp tid cur.sort_order db
             else neighborDown tid cur.sort_order db) with
      | none => (.okData, db)
      | some nbr => (.okData, moveApply cur nbr db)

/-- The link rows left after the DELETE statement of
`DELETE /api/workout-templates/:id/exercises/:exerciseId`
(src/server/index.js:675-679). -/
def remainingLinks (tid eid : Int) (db : Db) : List TemplateExerciseRow :=
  db.workout_template_exercises.filter
    (fun r => !(r.workout_template_id == tid && r.exercise_id == eid))

/-- The renumbering SELECT of the same handler: the template's remaining
rows ordered by `sort_order` (src/server/index.js:681-687). -/
def renumberOrder (tid eid : Int) (db : Db) : List TemplateExerciseRow :=
  List.insertionSort (fun a b => a.sort_order ≤ b.sort_order)
    ((remainingLinks tid eid db).filter (fun r => r.workout_template_id == tid))

/-- `DELETE /api/workout-templates/:id/exercises/:exerciseId`
(src/server/index.js:671-700): delete the link row, then loop over the
template's remaining rows in `sort_order` order updating the i-th row's
`sort_order` to i+1 by row id. -/
def deleteTemplateExercise (tid eid : Int) (db : Db) : Resp × Db :=
  let ids := (renumberOrder tid eid db).map (fun r => r.id)
  let wte := ids.enum.foldl
      (fun acc p => updateSortById p.2 ((p.1 : Int) + 1) acc)
      (remainingLinks tid eid db)
  (.okData, { db with workout_template_exercises := wte })

/-- One left-to-right pass replacing CRLF, then stray CR, by LF: the
composition of the two `String.replace` calls of `parseTSV`
(src/server/index.js:1228), written structurally so terms evaluate. -/
def normNL : List Char → List Char
  | [] => []
  | '\r' :: '\n' :: rest => '\n' :: normNL rest
  | '\r' :: rest => '\n' :: normNL rest
  | c :: rest => c :: normNL rest

/-- Drop leading whitespace characters. -/
def dropLeadingWs : List Char → List Char
  | [] => []
  | c :: cs => if c.isWhitespace then dropLeadingWs cs else c :: cs

/-- JS `String.prototype.trim` on the character list. -/
def trimChars (l : List Char) : List Char :=
  (dropLeadingWs ((dropLeadingWs l).reverse)).reverse

/-- JS `String.prototype.split` with a one-character separator (the only
kind `parseTSV` and the date parser use). -/
def splitOnChar (sep : Char) : List Char → List (List Char)
  | [] => [[]]
  | c :: cs =>
    let r := splitOnChar sep cs
    if c == sep then [] :: r
    else (c :: r.headD []) :: r.tail

/-- String wrapper of `trimChars`. -/
def jsTrim (s : String) : String := ⟨trimChars s.data⟩

/-- String wrapper of `splitOnChar`. -/
def jsSplit (sep : Char) (s : String) : List String :=
  (splitOnChar sep s.data).map (fun l => ⟨l⟩)

/-- The normalized input text of `parseTSV`:
`String(tsvText ?? "").replace(/\r\n/g,"\n").replace(/\r/g,"\n").trim()`. -/
def tsvText (s : String) : String := jsTrim ⟨normNL s.data⟩

/-- The non-blank lines of the normalized text (src/server/index.js:1231). -/
def tsvLines (s : String) : List String :=
  (jsSplit '\n' (tsvText s)).filter (fun l => !(jsTrim l == ""))

/-- JS-object property assignment `obj[k] = v` on a string-keyed record:
update the first binding of an existing key in place, else append. -/
def objInsert : List (String × String) → String → String → List (String × String)
  | [], k, v => [(k, v)]
  | p :: rest, k, v =>
    if p.1 == k then (p.1, v) :: rest else p :: objInsert rest k v

/-- JS-object property read `obj[k]`. -/
def objGet (l : List (String × String)) (k : String) : Option String :=
  (l.find? (fun p => p.1 == k)).map (fun p => p.2)

/-- The row object built by `parseTSV`'s inner loop
(src/server/index.js:1237-1240): for each header index j,
`obj[headers[j]] = (cols[j] ?? "").trim()`. -/
def rowObj (headers cols : List String) : List (String × String) :=
  headers.enum.foldl
    (fun obj p => objInsert obj p.2 (jsTrim (cols.getD p.1 ""))) []

/-- `parseTSV` (src/server/index.js:1227-1244). -/
def parseTSV (s : String) :
    (List String) × (List (List (String × String))) :=
  if tsvText s == "" then ([], [])
  else
    let headers := (jsSplit '\t' ((tsvLines s).headD "")).map jsTrim
    (headers,
     ((tsvLines s).drop 1).map (fun line => rowObj headers (jsSplit '\t' line)))

/-- The distinct elements of a list in first-occurrence order, skipping
those already in `seen`: the key order a JS object acquires when its
properties are assigned in list order. -/
def firstOccurrences (seen : List String) : List String → List String
  | [] => []
  | k :: t =>
    if seen.any (fun x => x == k) then firstOccurrences seen t
    else k :: firstOccurrences (seen ++ [k]) t

/-- Position (counting from i) of the last occurrence of k in the list,
the column whose assignment a JS object retains. -/
def lastIdxFrom (k : String) : Nat → List String → Option Nat
  | _, [] => none
  | i, h :: t =>
    match lastIdxFrom k (i + 1) t with
    | some j => some j
    | none => if h == k then some i else none

/-- `reqStr` (src/server/index.js:1246-1250): a trimmed required cell. -/
def reqStr (v field : String) : Except String String :=
  let s := jsTrim v
  if s == "" then .error ("Missing required field: " ++ field) else .ok s

/-- `optStr` (src/server/index.js:1251-1254): a trimmed optional cell. -/
def optStr (v : String) : Option String :=
  let s := jsTrim v
  if s == "" then none else some s

/-- The `-?\d+` whole-string integer test of `optInt`
(src/server/index.js:1258). -/
def isIntLit (s : String) : Bool :=
  match s.data with
  | [] => false
  | '-' :: rest => !rest.isEmpty && rest.all Char.isDigit
  | l => !l.isEmpty && l.all Char.isDigit

/-- Value of a digit string. -/
def digitsToNat (l : List Char) : Nat :=
  l.foldl (fun n c => 10 * n + (c.toNat - 48)) 0

/-- Value of a string accepted by `isIntLit`. -/
def intLitVal (s : String) : Int :=
  match s.data with
  | '-' :: rest => -(digitsToNat rest : Int)
  | l => (digitsToNat l : Int)

/-- `optInt` (src/server/index.js:1255-1260): blank is null, otherwise the
trimmed cell must be an integer literal. -/
def optInt (v field : String) : Except String (Option Int) :=
  let s := jsTrim v
  if s == "" then .ok none
  else if isIntLit s then .ok (some (intLitVal s))
  else .error (field ++ " must be an integer")

/-- `optNum` (src/server/index.js:1261-1267).  The numbers the claims
exercise are integers, so the model accepts integer literals. -/
def optNum (v field : String) : Except String (Option Int) :=
  let s := jsTrim v
  if s == "" then .ok none
  else if isIntLit s then .ok (some (intLitVal s))
  else .error (field ++ " must be a number")

/-- `r[k] ?? ""` on a row object. -/
def normGet (r : List (String × String)) (k : String) : String :=
  (objGet r k).getD ""

/-- The normalized row shape of the importer (src/server/index.js:1305-1317). -/
structure NormRow where
  plan_name : String
  base_template_name : String
  exercise_name : String
  sort_order : String
  target_sets : String
  target_reps : String
  target_weight : String
  notes : String
  deriving DecidableEq

/-- Build a `NormRow` from a parsed TSV row object. -/
def normRow (r : List (String × String)) : NormRow :=
  ⟨normGet r "plan_name", normGet r "base_template_name",
   normGet r "exercise_name", normGet r "sort_order", normGet r "target_sets",
   normGet r "target_reps", normGet r "target_weight", normGet r "notes"⟩

/-- One validated line of the importer, as pushed into its plan group
(src/server/index.js:1344-1351). -/
structure ImportItem where
  exercise_name : String
  sort_order : Option Int
  target_sets : Option Int
  target_reps : Option Int
  target_weight : Option Int
  notes : Option String
  deriving DecidableEq

/-- A value of the importer's `planGroups` map (src/server/index.js:1320). -/
structure PlanGroup where
  base_template_name : String
  items : List ImportItem
  deriving DecidableEq

/-- JS `Map.has`. -/
def mapHas (m : List (String × PlanGroup)) (k : String) : Bool :=
  m.any (fun p => p.1 == k)

/-- JS `Map.get`. -/
def mapGet (m : List (String × PlanGroup)) (k : String) : Option PlanGroup :=
  (m.find? (fun p => p.1 == k)).map (fun p => p.2)

/-- `planGroups.get(planName).items.push(item)`. -/
def mapPush (m : List (String × PlanGroup)) (k : String) (it : ImportItem) :
    List (String × PlanGroup) :=
  m.map (fun p => if p.1 == k then (p.1, ⟨p.2.base_template_name, p.2.items ++ [it]⟩) else p)

/-- JS `Set.add` (insertion-ordered, duplicate-free). -/
def setAdd (s : List String) (x : String) : List String :=
  if s.any (fun y => y == x) then s else s ++ [x]

/-- The per-row validation and grouping loop of the importer
(src/server/index.js:1324-1352): require the three name cells, collect the
template and exercise names, enforce one base template per plan name, and
push the parsed item onto its plan group. -/
def validateRow (st : (List (String × PlanGroup)) × (List String) × (List String))
    (r : NormRow) :
    Except String ((List (String × PlanGroup)) × (List String) × (List String)) := do
  let planName ← reqStr r.plan_name "plan_name"
  let baseTemplateName ← reqStr r.base_template_name "base_template_name"
  let exerciseName ← reqStr r.exercise_name "exercise_name"
  let groups0 := st.1
  let tNames := setAdd st.2.1 baseTemplateName
  let eNames := setAdd st.2.2 exerciseName
  let groups ←
    if mapHas groups0 planName then
      match mapGet groups0 planName with
      | some g =>
        if g.base_template_name ≠ baseTemplateName then
          Except.error ("Plan " ++ planName ++ " has multiple base_template_name values")
        else pure groups0
      | none => pure groups0
    else pure (groups0 ++ [(planName, ⟨baseTemplateName, []⟩)])
  let so ← optInt r.sort_order "sort_order"
  let ts ← optInt r.target_sets "target_sets"
  let tr ← optInt r.target_reps "target_reps"
  let tw ← optNum r.target_weight "target_weight"
  let item : ImportItem := ⟨exerciseName, so, ts, tr, tw, optStr r.notes⟩
  pure (mapPush groups planName item, tNames, eNames)

/-- `toLowerCase` of the characters SQL `lower()` sees here (ASCII). -/
def lowerChar (c : Char) : Char :=
  if 65 ≤ c.toNat ∧ c.toNat ≤ 90 then Char.ofNat (c.toNat + 32) else c

/-- ASCII lower-casing of a name, the model of SQL `lower()`. -/
def lowerStr (s : String) : String := ⟨s.data.map lowerChar⟩

/-- The template-name lookups of the importer (src/server/index.js:1356-1365):
first row whose name matches case-insensitively, error when absent. -/
def lookupTemplates (names : List String) (db : Db) :
    Except String (List (String × Int)) :=
  match names with
  | [] => .ok []
  | n :: rest =>
    match db.workout_templates.find? (fun t => lowerStr t.name == lowerStr n) with
    | none => .error ("Base template not found: " ++ n)
    | some t => do
      let m ← lookupTemplates rest db
      pure ((n, t.id) :: m)

/-- The exercise-name lookups of the importer (src/server/index.js:1367-1376). -/
def lookupExercises (names : List String) (db : Db) :
    Except String (List (String × Int)) :=
  match names with
  | [] => .ok []
  | n :: rest =>
    match db.exercises.find? (fun e => lowerStr e.name == lowerStr n) with
    | none => .error ("Exercise not found: " ++ n)
    | some e => do
      let m ← lookupExercises rest db
      pure ((n, e.id) :: m)

/-- Association-list read for the importer's name-to-id maps. -/
def lookupAssoc (m : List (String × Int)) (k : String) : Option Int :=
  (m.find? (fun p => p.1 == k)).map (fun p => p.2)

/-- `sort_order: x.sort_order ?? idx + 1` (src/server/index.js:1418-1421). -/
def assignSortOrders (items : List ImportItem) : List ImportItem :=
  items.enum.map (fun p =>
    ⟨p.2.exercise_name, some (p.2.sort_order.getD ((p.1 : Int) + 1)),
     p.2.target_sets, p.2.target_reps, p.2.target_weight, p.2.notes⟩)

/-- The importer's insert loop for one plan (src/server/index.js:1424-1443). -/
def insertPlanItems (db : Db) (planId : Int) (exMap : List (String × Int)) :
    List ImportItem → Db
  | [] => db
  | it :: rest =>
    let row : PlanExerciseRow :=
      ⟨db.nextId, planId, (lookupAssoc exMap it.exercise_name).getD 0,
       it.sort_order.getD 0, it.target_sets, it.target_reps, it.target_weight,
       it.notes⟩
    insertPlanItems
      { db with workout_plan_exercises := db.workout_plan_exercises ++ [row],
                nextId := db.nextId + 1 }
      planId exMap rest

/-- The create/replace step for one plan group (src/server/index.js:1383-1444):
an existing plan (same lower-cased name and base template) errors in create
mode and has its exercise rows deleted then reinserted in replace mode; a
missing plan is created first. -/
def importPlanGroup (mode : String) (tmplMap exMap : List (String × Int))
    (acc : Db × Nat × Nat × Nat) (pg : String × PlanGroup) :
    Except String (Db × Nat × Nat × Nat) :=
  let db := acc.1
  let baseTemplateId := (lookupAssoc tmplMap pg.2.base_template_name).getD 0
  match db.workout_plans.find?
      (fun p => lowerStr p.name == lowerStr pg.1 && p.base_template_id == baseTemplateId) with
  | some existing =>
    if mode == "create" then
      .error ("Plan already exists for this workout: " ++ pg.1)
    else
      let db1 := { db with workout_plan_exercises :=
        db.workout_plan_exercises.filter (fun r => !(r.plan_id == existing.id)) }
      let items := assignSortOrders pg.2.items
      let db2 := insertPlanItems db1 existing.id exMap items
      .ok (db2, acc.2.1, acc.2.2.1 + 1, acc.2.2.2 + items.length)
  | none =>
    let planId := db.nextId
    let db1 := { db with
      workout_plans := db.workout_plans ++ [⟨planId, pg.1, baseTemplateId⟩],
      nextId := db.nextId + 1 }
    let items := assignSortOrders pg.2.items
    let db2 := insertPlanItems db1 planId exMap items
    .ok (db2, acc.2.1 + 1, acc.2.2.1, acc.2.2.2 + items.length)

/-- `POST /api/import/plans` (src/server/index.js:1270-1474).  `dry_run`
and `mode` arrive with their body defaults already applied (true and
"create").  Every thrown error is caught, the transaction rolled back and
400 answered with the database unchanged; a dry run also rolls back. -/
def importPlans (tsv : Option String) (dry_run : Bool) (mode : String)
    (db : Db) : Resp × Db :=
  match tsv with
  | none => (.badRequest, db)
  | some t =>
    if t == "" then (.badRequest, db)
    else if !(mode == "create" || mode == "replace") then (.badRequest, db)
    else
      let headers := (parseTSV t).1
      let rows := (parseTSV t).2
      if !(["plan_name", "base_template_name", "exercise_name"].all
            (fun h => headers.any (fun x => x == h))) then (.badRequest, db)
      else
        match (rows.map normRow).foldlM validateRow ([], [], []) with
        | .error _ => (.badRequest, db)
        | .ok (groups, tNames, eNames) =>
          match lookupTemplates tNames db with
          | .error _ => (.badRequest, db)
          | .ok tmplMap =>
            match lookupExercises eNames db with
            | .error _ => (.badRequest, db)
            | .ok exMap =>
              match groups.foldlM (importPlanGroup mode tmplMap exMap) (db, 0, 0, 0) with
              | .error _ => (.badRequest, db)
              | .ok out =>
                if dry_run then (.okImport true out.2.1 out.2.2.1 out.2.2.2, db)
                else (.okImport false out.2.1 out.2.2.1 out.2.2.2, out.1)

/-- The contiguous sequence 1..N (as SQL integers). -/
def oneToN (n : Nat) : List Int := (List.range n).map (fun i : Nat => (i : Int) + 1)

/-- The database of the C4 import counterexample: template "T", exercise
"E", and an existing plan "P" with one exercise row. -/
def impExDb : Db :=
  { exercises := [⟨10, "E"⟩],
    workout_templates := [⟨1, "T"⟩],
    workout_template_exercises := [],
    workout_plans := [⟨2, "P", 1⟩],
    workout_plan_exercises := [⟨3, 2, 10, 1, none, none, none, none⟩],
    workout_sessions := [],
    exercise_sets := [],
    workout_calendar := [],
    nextId := 50 }

/-- A JSON body value as relevant to `POST /api/sets`. -/
inductive JVal where
  | null
  | num (n : Int)
  | str (s : String)
  deriving DecidableEq

/-- The `$k::int` cast Postgres applies to a bound parameter: NULL passes
through, a number is taken as is (integral in this model), a string must
read as an integer after trimming. -/
def castInt : JVal → Except String (Option Int)
  | .null => .ok none
  | .num n => .ok (some n)
  | .str s =>
    if isIntLit (jsTrim s) then .ok (some (intLitVal (jsTrim s)))
    else .error "invalid input syntax for type integer"

/-- Body of `POST /api/sets`, with each field as the raw JSON value
(`null` also models an absent field, which the driver sends as NULL). -/
structure SetsBody where
  session_id : JVal
  exercise_id : JVal
  set_number : JVal
  weight : JVal
  reps : JVal
  rpe : JVal
  deriving DecidableEq

/-- `POST /api/sets` (src/server/index.js:228-236): no validation and no
try/catch — the INSERT is attempted directly.  The three key columns are
non-nullable (every reader joins logged sets by session, exercise and set
number), so a null key or a failed cast makes the statement throw; the
rejected promise escapes the handler and no response is sent
(`Resp.unhandled`). -/
def postSets (b : SetsBody) (db : Db) : Resp × Db :=
  match castInt b.session_id with
  | .ok (some s) =>
    match castInt b.exercise_id with
    | .ok (some e) =>
      match castInt b.set_number with
      | .ok (some n) =>
        match castInt b.weight with
        | .ok w =>
          match castInt b.reps with
          | .ok r =>
            match castInt b.rpe with
            | .ok p =>
              (.ok, { db with exercise_sets := db.exercise_sets ++ [⟨s, e, n, w, r, p⟩] })
            | .error _ => (.unhandled, db)
          | .error _ => (.unhandled, db)
        | .error _ => (.unhandled, db)
      | _ => (.unhandled, db)
    | _ => (.unhandled, db)
  | _ => (.unhandled, db)

/-- Day of week of an epoch day, 0 = Sunday … 6 = Saturday (epoch day 0,
1970-01-01, was a Thursday): `Date.prototype.getUTCDay`. -/
def getUTCDay (d : Int) : Int := (d + 4) % 7

/-- `startOfWeekMonday` (src/server/index.js:47-54) on epoch days: shift
back to the Monday of the same ISO week. -/
def startOfWeekMonday (d : Int) : Int :=
  let dow := getUTCDay d
  let diff := if dow = 0 then -6 else 1 - dow
  d + diff

/-- Epoch day of a proleptic Gregorian civil date (month 1..12). -/
def civilToDays (y m d : Int) : Int :=
  let y2 := if m ≤ 2 then y - 1 else y
  let era := y2.fdiv 400
  let yoe := y2 - era * 400
  let mp := if 2 < m then m - 3 else m + 9
  let doy := (153 * mp + 2).fdiv 5 + d - 1
  let doe := yoe * 365 + yoe.fdiv 4 - yoe.fdiv 100 + doy
  era * 146097 + doe - 719468

/-- `Date.UTC(y, m0, d)` with a 0-based month, under JS normalization:
month overflow rolls into years and the day counts on from day 1 of the
resulting month. -/
def jsMakeDay (y m0 d : Int) : Int :=
  civilToDays (y + m0.fdiv 12) (m0.emod 12 + 1) 1 + (d - 1)

/-- The shape test of `parseISODateOnly`: four digits, dash, two digits,
dash, two digits (src/server/index.js:38). -/
def isDateShape (s : String) : Bool :=
  match s.data with
  | [a, b, c, d, '-', e, f, '-', g, h] =>
    a.isDigit && b.isDigit && c.isDigit && d.isDigit &&
    e.isDigit && f.isDigit && g.isDigit && h.isDigit
  | _ => false

/-- `parseISODateOnly` (src/server/index.js:36-41), returning the epoch
day of the JS-normalized date; `none` (the route's 400) when the
parameter is absent or fails the shape test. -/
def parseISODateOnly (s : Option String) : Option Int :=
  match s with
  | none => none
  | some str =>
    if !(isDateShape str) then none
    else
      match (jsSplit '-' str).map (fun t => (digitsToNat t.data : Int)) with
      | [y, m, d] => some (jsMakeDay y (m - 1) d)
      | _ => none

/-- The ordering `order by planned_on asc, id asc` of the calendar query. -/
def calOrder (a b : CalendarRow) : Prop :=
  a.planned_on < b.planned_on ∨ (a.planned_on = b.planned_on ∧ a.id ≤ b.id)

instance : DecidableRel calOrder := fun a b => by
  unfold calOrder
  infer_instance

/-- `GET /api/calendar` (src/server/index.js:1066-1102): 400 unless
`week_start` matches the date shape; otherwise normalize to the week's
Monday and answer the `workout_calendar` rows of [monday, monday+7) that
inner-join to an existing plan and template, ordered by `planned_on` then
id. -/
def getCalendar (weekStart : Option String) (db : Db) : Resp :=
  match parseISODateOnly weekStart with
  | none => .badRequest
  | some d =>
    let monday := startOfWeekMonday d
    let weekEnd := monday + 7
    let rows := db.workout_calendar.filter (fun r =>
      decide (monday ≤ r.planned_on) && decide (r.planned_on < weekEnd) &&
      db.workout_plans.any (fun p => p.id == r.workout_plan_id) &&
      db.workout_templates.any (fun t => t.id == r.workout_template_id))
    .okCalendar monday (List.insertionSort calOrder rows)

/-- A SQL statement of a transaction script: a data statement modeled by
its effect on the database, or transaction control. -/
inductive Stmt (σ : Type) where
  | begin
  | commit
  | rollback
  | op (f : σ → σ)

/-- One checked-out connection: the visible database plus the snapshot
taken at BEGIN (ROLLBACK restores it). -/
structure ClientConn (σ : Type) where
  db : σ
  snap : Option σ

/-- Effect of one statement on a checked-out client connection. -/
def execClientStmt {σ : Type} (c : ClientConn σ) : Stmt σ → ClientConn σ
  | .begin => { c with snap := some c.db }
  | .commit => { c with snap := none }
  | .rollback => ⟨c.snap.getD c.db, none⟩
  | .op f => { c with db := f c.db }

/-- Run statements in order from index i on one client; when
`fault = some k` the k-th statement raises before taking effect, the rest
are skipped and the catch block issues ROLLBACK on the same client. -/
def runClientAux {σ : Type} (fault : Option Nat) :
    ClientConn σ → List (Stmt σ) → Nat → ClientConn σ
  | c, [], _ => c
  | c, s :: rest, i =>
    if fault = some i then execClientStmt c .rollback
    else runClientAux fault (execClientStmt c s) rest (i + 1)

/-- The checked-out-client transaction pattern of the bulk set replace,
session delete, plan delete and TSV import handlers
(src/server/index.js:367-399, 508-520, 1007-1030, 1354-1470): run the
script on one connection, roll back on the same connection when a
statement fails, and always release the client (second component). -/
def runClientTx {σ : Type} (stmts : List (Stmt σ)) (fault : Option Nat)
    (db : σ) : σ × Bool :=
  ((runClientAux fault ⟨db, none⟩ stmts 0).db, true)

/-- The pool as the move handler uses it: each `pool.query` call checks out
some idle connection, runs its one statement there and releases it.
`tx` holds each connection's open-transaction view (`none` = autocommit). -/
structure PoolState (σ : Type) where
  db : σ
  tx : List (Option σ)

/-- Effect of one statement executed through the pool on connection
`conn`: inside an open transaction the statement works on that
connection's private view, published at COMMIT; outside one, a data
statement autocommits straight to the shared database. -/
def execPoolStmt {σ : Type} (ps : PoolState σ) (conn : Nat) :
    Stmt σ → PoolState σ
  | .begin => { ps with tx := ps.tx.set conn (some ps.db) }
  | .commit =>
    match ps.tx.getD conn none with
    | some v => ⟨v, ps.tx.set conn none⟩
    | none => ps
  | .rollback => { ps with tx := ps.tx.set conn none }
  | .op f =>
    match ps.tx.getD conn none with
    | some v => { ps with tx := ps.tx.set conn (some (f v)) }
    | none => { ps with db := f ps.db }

/-- Run statements through the pool: the i-th `pool.query` lands on
connection `sched[i]`; on a fault the catch block's ROLLBACK is itself a
`pool.query` landing on `rbConn`. -/
def runPoolAux {σ : Type} (sched : List Nat) (rbConn : Nat)
    (fault : Option Nat) : PoolState σ → List (Stmt σ) → Nat → PoolState σ
  | ps, [], _ => ps
  | ps, s :: rest, i =>
    if fault = some i then execPoolStmt ps rbConn .rollback
    else runPoolAux sched rbConn fault (execPoolStmt ps (sched.getD i 0) s) rest (i + 1)

/-- The committed database after issuing a script through a pool of
`nconns` connections under connection schedule `sched`. -/
def runPoolTx {σ : Type} (stmts : List (Stmt σ)) (sched : List Nat)
    (rbConn : Nat) (fault : Option Nat) (db : σ) (nconns : Nat) : σ :=
  (runPoolAux sched rbConn fault ⟨db, List.replicate nconns none⟩ stmts 0).db

/-- The script the move handler issues through `pool.query`
(src/server/index.js:748-758): BEGIN, give the current row (`curId`) the
neighbor's order, give the neighbor row (`nbId`) the current order,
COMMIT. -/
def moveSwapScript (curId curOrder nbId nbOrder : Int) : List (Stmt Db) :=
  [Stmt.begin,
   Stmt.op (fun db => { db with workout_template_exercises :=
      (updateSortById curId nbOrder db.workout_template_exercises) }),
   Stmt.op (fun db => { db with workout_template_exercises :=
      (updateSortById nbId curOrder db.workout_template_exercises) }),
   Stmt.commit]

/-- Filtering with `q` after keeping only elements that fail `p` is the same
as filtering with `q`, whenever satisfying `q` rules out satisfying `p`. -/
theorem filter_and_not_of_imp {α : Type} {p q : α → Bool}
    (h : ∀ x, q x = true → p x = false) (l : List α) :
    l.filter (fun a => q a && !p a) = l.filter q := by
  apply List.filter_congr
  intro x _
  cases hq : q x with
  | false => simp
  | true => simp [h x hq]

/-- C1: after a successful bulk set replace for (session s, exercise e) the
`exercise_sets` rows of that pair are exactly the rows derived from the sent
list (one per element, fields and nulls preserved), the reported inserted
count is the list's length, and the rows of every other (session, exercise)
pair are untouched, as is every other table. -/
theorem setsBulk_replaces_exactly (s e : Int) (L : List SetIn) (db : Db)
    (r : Resp) (db' : Db)
    (hs : s ≠ 0) (he : e ≠ 0)
    (h : setsBulk ⟨some s, some e, some L⟩ db = (r, db')) :
    r = .okBulk L.length ∧
    db'.exercise_sets.filter (fun x => x.session_id == s && x.exercise_id == e)
      = L.map (setInRow s e) ∧
    (∀ s' e' : Int, ¬(s' = s ∧ e' = e) →
      db'.exercise_sets.filter (fun x => x.session_id == s' && x.exercise_id == e')
        = db.exercise_sets.filter (fun x => x.session_id == s' && x.exercise_id == e')) ∧
    db'.exercises = db.exercises ∧
    db'.workout_templates = db.workout_templates ∧
    db'.workout_template_exercises = db.workout_template_exercises ∧
    db'.workout_plans = db.workout_plans ∧
    db'.workout_plan_exercises = db.workout_plan_exercises ∧
    db'.workout_sessions = db.workout_sessions ∧
    db'.workout_calendar = db.workout_calendar := by
  have hval : setsBulk ⟨some s, some e, some L⟩ db
      = (Resp.okBulk L.length,
         { db with exercise_sets :=
             (db.exercise_sets.filter
                (fun x => !(x.session_id == s && x.exercise_id == e))
              ++ L.map (setInRow s e)) }) := by
    show (if s == 0 || e == 0 then _ else _) = _
    rw [if_neg]
    simp [hs, he]
  rw [hval] at h
  obtain ⟨hr, hdb⟩ := Prod.mk.injEq .. ▸ h
  subst hr
  subst hdb
  refine ⟨rfl, ?_, ?_, rfl, rfl, rfl, rfl, rfl, rfl, rfl⟩
  · show (List.filter _ (_ ++ _)) = _
    simp only [List.filter_append, List.filter_filter]
    have hcontra : ∀ x : SetRow,
        ((x.session_id == s && x.exercise_id == e) &&
          !(x.session_id == s && x.exercise_id == e)) = false := by
      intro x; simp
    simp only [hcontra, List.filter_false, List.nil_append]
    apply List.filter_eq_self.mpr
    intro x hx
    obtain ⟨y, _, rfl⟩ := List.mem_map.mp hx
    simp [setInRow]
  · intro s' e' hne
    show (List.filter _ (_ ++ _)) = _
    simp only [List.filter_append, List.filter_filter]
    have h1 : List.filter
        (fun x => (x.session_id == s' && x.exercise_id == e') &&
          !(x.session_id == s && x.exercise_id == e)) db.exercise_sets
        = List.filter
            (fun x => x.session_id == s' && x.exercise_id == e') db.exercise_sets := by
      apply filter_and_not_of_imp
      intro x hx
      simp only [Bool.and_eq_true, beq_iff_eq] at hx
      obtain ⟨hx1, hx2⟩ := hx
      simp only [Bool.and_eq_false_iff, beq_eq_false_iff_ne, ne_eq, hx1, hx2]
      by_cases hss : s' = s
      · right; intro hee; exact hne ⟨hss, hee⟩
      · left; exact hss
    have h2 : List.filter
        (fun x => x.session_id == s' && x.exercise_id == e') (L.map (setInRow s e))
        = [] := by
      apply List.filter_eq_nil_iff.mpr
      intro x hx
      obtain ⟨y, _, rfl⟩ := List.mem_map.mp hx
      simp only [setInRow, Bool.and_eq_true, beq_iff_eq, not_and]
      rintro rfl rfl
      exact hne ⟨rfl, rfl⟩
    rw [h1, h2, List.append_nil]

/-- Concrete instantiation of `setsBulk_replaces_exactly`. -/
theorem setsBulk_replaces_exactly_witness :
    (setsBulk ⟨some 7, some 10, some [⟨1, some 105, some 5, some 8⟩]⟩ exDb).1
      = .okBulk 1 ∧
    (setsBulk ⟨some 7, some 10, some [⟨1, some 105, some 5, some 8⟩]⟩ exDb).2.exercise_sets.filter
        (fun x => x.session_id == 7 && x.exercise_id == 10)
      = [⟨7, 10, 1, some 105, some 5, some 8⟩] := by
  have h := setsBulk_replaces_exactly 7 10 [⟨1, some 105, some 5, some 8⟩] exDb
    (setsBulk ⟨some 7, some 10, some [⟨1, some 105, some 5, some 8⟩]⟩ exDb).1
    (setsBulk ⟨some 7, some 10, some [⟨1, some 105, some 5, some 8⟩]⟩ exDb).2
    (by decide) (by decide) rfl
  exact ⟨h.1, h.2.1⟩

/-- C3: deleting an exercise that is referenced from some workout template's
exercise list answers 409 and changes nothing; deleting an unreferenced
exercise succeeds and removes exactly the `exercises` rows bearing that id,
keeping every other row and table intact. -/
theorem deleteExercise_usage_guard (x : Int) (db : Db) :
    ((∃ row ∈ db.workout_template_exercises, row.exercise_id = x) →
      deleteExercise (some x) db = (.conflict, db)) ∧
    ((∀ row ∈ db.workout_template_exercises, row.exercise_id ≠ x) →
      (deleteExercise (some x) db).1 = .ok ∧
      (deleteExercise (some x) db).2.exercises
        = db.exercises.filter (fun r => !(r.id == x)) ∧
      (∀ r ∈ db.exercises, r.id ≠ x → r ∈ (deleteExercise (some x) db).2.exercises) ∧
      (∀ r ∈ (deleteExercise (some x) db).2.exercises, r.id ≠ x) ∧
      (deleteExercise (some x) db).2.workout_template_exercises
        = db.workout_template_exercises ∧
      (deleteExercise (some x) db).2.workout_templates = db.workout_templates ∧
      (deleteExercise (some x) db).2.workout_plans = db.workout_plans ∧
      (deleteExercise (some x) db).2.workout_plan_exercises = db.workout_plan_exercises ∧
      (deleteExercise (some x) db).2.workout_sessions = db.workout_sessions ∧
      (deleteExercise (some x) db).2.exercise_sets = db.exercise_sets) := by
  constructor
  · rintro ⟨row, hmem, hrow⟩
    have hused : (db.workout_template_exercises.any
        (fun r => some r.exercise_id == some x)) = true :=
      List.any_eq_true.mpr ⟨row, hmem, by simp [hrow]⟩
    simp only [deleteExercise]
    rw [hused]
    simp
  · intro hall
    have hused : (db.workout_template_exercises.any
        (fun r => some r.exercise_id == some x)) = false := by
      apply List.any_eq_false.mpr
      intro r hr
      simp [hall r hr]
    have hfun : ∀ r : ExerciseRow, (!(some r.id == some x)) = (!(r.id == x)) := by
      intro r; simp
    have hval : deleteExercise (some x) db
        = (.ok, { db with exercises := db.exercises.filter (fun r => !(r.id == x)) }) := by
      simp only [deleteExercise]
      rw [hused]
      simp only [hfun]
      simp
    rw [hval]
    refine ⟨rfl, rfl, ?_, ?_, rfl, rfl, rfl, rfl, rfl, rfl⟩
    · intro r hr hne
      exact List.mem_filter.mpr ⟨hr, by simp [hne]⟩
    · intro r hr
      have := (List.mem_filter.mp hr).2
      simpa using this

/-- Concrete instantiation of `deleteExercise_usage_guard`: exercise 10 is
used by template 1 (409, no change), exercise 12 is unused (deleted). -/
theorem deleteExercise_usage_guard_witness :
    deleteExercise (some 10) exDb = (.conflict, exDb) ∧
    (deleteExercise (some 12) exDb).1 = .ok ∧
    (deleteExercise (some 12) exDb).2.exercises = [⟨10, "Squat"⟩, ⟨11, "Bench"⟩] := by
  have h10 := (deleteExercise_usage_guard 10 exDb).1
  have h12 := (deleteExercise_usage_guard 12 exDb).2
  refine ⟨h10 ⟨⟨100, 1, 10, 1, some 3, some "8", none⟩, by decide, rfl⟩, ?_, ?_⟩
  · exact (h12 (by decide)).1
  · rw [(h12 (by decide)).2.1]
    decide

/-- C6: deleting plan p removes the plan row and its plan-exercise rows;
every session keeps its place and all fields except that a `plan_id`
referencing p becomes null; logged sets, templates, exercises, the calendar
and other plans are untouched. -/
theorem deletePlan_nulls_sessions (p : Int) (db : Db) (hp : p ≠ 0) :
    (deletePlan (some p) db).1 = .ok ∧
    (deletePlan (some p) db).2.workout_plans
      = db.workout_plans.filter (fun r => !(r.id == p)) ∧
    (deletePlan (some p) db).2.workout_plan_exercises
      = db.workout_plan_exercises.filter (fun r => !(r.plan_id == p)) ∧
    (deletePlan (some p) db).2.workout_sessions
      = db.workout_sessions.map
          (fun s => if s.plan_id = some p then { s with plan_id := none } else s) ∧
    (deletePlan (some p) db).2.workout_sessions.length
      = db.workout_sessions.length ∧
    (∀ s ∈ db.workout_sessions, s.plan_id = some p →
      { s with plan_id := none } ∈ (deletePlan (some p) db).2.workout_sessions) ∧
    (∀ s ∈ db.workout_sessions, s.plan_id ≠ some p →
      s ∈ (deletePlan (some p) db).2.workout_sessions) ∧
    (deletePlan (some p) db).2.exercise_sets = db.exercise_sets ∧
    (deletePlan (some p) db).2.exercises = db.exercises ∧
    (deletePlan (some p) db).2.workout_templates = db.workout_templates ∧
    (deletePlan (some p) db).2.workout_template_exercises
      = db.workout_template_exercises ∧
    (deletePlan (some p) db).2.workout_calendar = db.workout_calendar := by
  have hval : deletePlan (some p) db
      = (.ok, { db with
          workout_sessions := db.workout_sessions.map
            (fun s => if s.plan_id == some p then { s with plan_id := none } else s),
          workout_plan_exercises :=
            db.workout_plan_exercises.filter (fun r => !(r.plan_id == p)),
          workout_plans := db.workout_plans.filter (fun r => !(r.id == p)) }) := by
    show (if p == 0 then _ else _) = _
    rw [if_neg (by simp [hp])]
  rw [hval]
  have hmap : db.workout_sessions.map
      (fun s => if s.plan_id == some p then { s with plan_id := none } else s)
      = db.workout_sessions.map
          (fun s => if s.plan_id = some p then { s with plan_id := none } else s) := by
    apply List.map_congr_left
    intro s _
    by_cases hs : s.plan_id = some p
    · simp [hs]
    · simp [hs]
  refine ⟨rfl, rfl, rfl, hmap, by simp, ?_, ?_, rfl, rfl, rfl, rfl, rfl⟩
  · intro s hs hsp
    have := List.mem_map_of_mem
      (fun s => if s.plan_id == some p then { s with plan_id := none } else s) hs
    simpa [hsp] using this
  · intro s hs hsp
    have := List.mem_map_of_mem
      (fun s => if s.plan_id == some p then { s with plan_id := none } else s) hs
    simpa [hsp] using this

/-- Concrete instantiation of `deletePlan_nulls_sessions` at plan 2. -/
theorem deletePlan_nulls_sessions_witness :
    (deletePlan (some 2) exDb).1 = .ok ∧
    (deletePlan (some 2) exDb).2.workout_plans = [] ∧
    (deletePlan (some 2) exDb).2.workout_sessions
      = [⟨7, some 1, none, none, "2025-01-06"⟩] := by
  have h := deletePlan_nulls_sessions 2 exDb (by decide)
  refine ⟨h.1, ?_, ?_⟩
  · rw [h.2.1]; decide
  · rw [h.2.2.2.1]; decide

/-- C7: starting a session 400s when neither or both of template/plan id are
given (truthy) and changes nothing; with only a `plan_id`, a missing plan
gives 404 and creates nothing, and an existing plan yields a session storing
that `plan_id` with `workout_template_id` equal to the plan's
`base_template_id` and `performed_on` defaulting to today when absent. -/
theorem startSession_validation_and_derivation (b : SessionBody) (today : String)
    (db : Db) :
    (¬ truthy b.workout_template_id → ¬ truthy b.plan_id →
      startSession b today db = (.badRequest, db)) ∧
    (truthy b.workout_template_id → truthy b.plan_id →
      startSession b today db = (.badRequest, db)) ∧
    (¬ truthy b.workout_template_id → truthy b.plan_id →
      (∀ r ∈ db.workout_plans, some r.id ≠ b.plan_id) →
      startSession b today db = (.notFound, db)) ∧
    (∀ plan, ¬ truthy b.workout_template_id → truthy b.plan_id →
      db.workout_plans.find? (fun r => some r.id == b.plan_id) = some plan →
      plan.base_template_id ≠ 0 →
      (startSession b today db).1
        = .okSession db.nextId (some plan.base_template_id) b.plan_id ∧
      (startSession b today db).2.workout_sessions
        = db.workout_sessions ++
            [⟨db.nextId, some plan.base_template_id, b.plan_id,
              b.workout_calendar_id, b.performed_on.getD today⟩] ∧
      (b.performed_on = none →
        (startSession b today db).2.workout_sessions
          = db.workout_sessions ++
              [⟨db.nextId, some plan.base_template_id, b.plan_id,
                b.workout_calendar_id, today⟩]) ∧
      (startSession b today db).2.exercises = db.exercises ∧
      (startSession b today db).2.workout_templates = db.workout_templates ∧
      (startSession b today db).2.workout_template_exercises
        = db.workout_template_exercises ∧
      (startSession b today db).2.workout_plans = db.workout_plans ∧
      (startSession b today db).2.workout_plan_exercises
        = db.workout_plan_exercises ∧
      (startSession b today db).2.exercise_sets = db.exercise_sets ∧
      (startSession b today db).2.workout_calendar = db.workout_calendar) := by
  refine ⟨?_, ?_, ?_, ?_⟩
  · intro h1 h2
    simp only [startSession]
    rw [if_pos (by simp [h1, h2])]
  · intro h1 h2
    simp only [startSession]
    rw [if_neg (by simp [h1, h2]), if_pos (by simp [h1, h2])]
  · intro h1 h2 hnone
    have hfind : db.workout_plans.find? (fun r => some r.id == b.plan_id) = none := by
      apply List.find?_eq_none.mpr
      intro r hr
      simp [hnone r hr]
    simp only [startSession]
    rw [if_neg (by simp [h1, h2]), if_neg (by simp [h1, h2]), if_pos h2, hfind]
  · intro plan h1 h2 hfind hbase
    have hval : startSession b today db
        = (.okSession db.nextId (some plan.base_template_id) b.plan_id,
           { db with
             workout_sessions := db.workout_sessions ++ [⟨db.nextId, some plan.base_template_id, b.plan_id, b.workout_calendar_id, b.performed_on.getD today⟩],
             nextId := db.nextId + 1 }) := by
      simp only [startSession]
      rw [if_neg (by simp [h1, h2]), if_neg (by simp [h1, h2]), if_pos h2, hfind]
      show (if (plan.base_template_id == 0) = true then _ else _) = _
      rw [if_neg (by simp [hbase])]
    rw [hval]
    refine ⟨rfl, rfl, ?_, rfl, rfl, rfl, rfl, rfl, rfl, rfl⟩
    intro hnone
    simp [hnone]

/-- Concrete instantiation of `startSession_validation_and_derivation`:
plan 2 exists with base template 1, and `performed_on` is absent. -/
theorem startSession_validation_and_derivation_witness :
    startSession ⟨none, none, none, none⟩ "2025-02-03" exDb = (.badRequest, exDb) ∧
    startSession ⟨some 1, some 2, none, none⟩ "2025-02-03" exDb = (.badRequest, exDb) ∧
    startSession ⟨none, some 99, none, none⟩ "2025-02-03" exDb = (.notFound, exDb) ∧
    (startSession ⟨none, some 2, none, none⟩ "2025-02-03" exDb).1
      = .okSession 1000 (some 1) (some 2) ∧
    (startSession ⟨none, some 2, none, none⟩ "2025-02-03" exDb).2.workout_sessions
      = [⟨7, some 1, some 2, none, "2025-01-06"⟩,
         ⟨1000, some 1, some 2, none, "2025-02-03"⟩] := by
  have h0 := startSession_validation_and_derivation
    ⟨none, none, none, none⟩ "2025-02-03" exDb
  have h1 := startSession_validation_and_derivation
    ⟨some 1, some 2, none, none⟩ "2025-02-03" exDb
  have h2 := startSession_validation_and_derivation
    ⟨none, some 99, none, none⟩ "2025-02-03" exDb
  have h3 := startSession_validation_and_derivation
    ⟨none, some 2, none, none⟩ "2025-02-03" exDb
  have h3ok := h3.2.2.2 ⟨2, "P", 1⟩ (by decide) (by decide) (by decide) (by decide)
  exact ⟨h0.1 (by decide) (by decide), h1.2.1 (by decide) (by decide),
    h2.2.2.1 (by decide) (by decide) (by decide), h3ok.1,
    by rw [h3ok.2.2.1 rfl]; decide⟩

/-- The two sequential UPDATEs by id act as one pointwise swap of the two
rows' `sort_order` values when the two ids differ. -/
theorem updateSortById_twice (cid nid v w : Int) (hne : cid ≠ nid)
    (l : List TemplateExerciseRow) :
    updateSortById nid w (updateSortById cid v l)
      = l.map (fun x => if x.id = cid then { x with sort_order := v }
               else if x.id = nid then { x with sort_order := w } else x) := by
  simp only [updateSortById, List.map_map]
  apply List.map_congr_left
  intro x _
  have h4 : nid ≠ cid := fun hh => hne hh.symm
  by_cases h1 : x.id = cid
  · have h3 : x.id ≠ nid := by rw [h1]; exact hne
    simp [Function.comp, h1, h3, hne]
  · by_cases h2 : x.id = nid
    · simp [Function.comp, h1, h2, h4]
    · simp [Function.comp, h1, h2]

/-- The head of a list, when present, is a member. -/
theorem mem_of_head?_eq_some {α : Type} {l : List α} {a : α}
    (h : l.head? = some a) : a ∈ l := by
  cases l with
  | nil => simp at h
  | cons x xs =>
    simp only [List.head?_cons, Option.some.injEq] at h
    subst h
    exact List.mem_cons_self x xs

/-- What a successful `neighborUp` lookup returns: a row of the same
template with smaller `sort_order`, maximal among those (the nearest row
above). -/
theorem neighborUp_spec (tid o : Int) (db : Db) (nbr : TemplateExerciseRow)
    (h : neighborUp tid o db = some nbr) :
    nbr ∈ db.workout_template_exercises ∧ nbr.workout_template_id = tid ∧
    nbr.sort_order < o ∧
    (∀ r ∈ db.workout_template_exercises, r.workout_template_id = tid →
      r.sort_order < o → r.sort_order ≤ nbr.sort_order) := by
  unfold neighborUp at h
  set l := db.workout_template_exercises.filter
      (fun r => r.workout_template_id == tid && decide (r.sort_order < o)) with hl
  set s := List.insertionSort (fun a b => b.sort_order ≤ a.sort_order) l with hs
  have hperm : s.Perm l := List.perm_insertionSort _ l
  haveI hTot : IsTotal TemplateExerciseRow
      (fun a b => b.sort_order ≤ a.sort_order) :=
    ⟨fun a b => le_total b.sort_order a.sort_order⟩
  haveI hTrans : IsTrans TemplateExerciseRow
      (fun a b => b.sort_order ≤ a.sort_order) :=
    ⟨fun _ _ _ hab hbc => le_trans hbc hab⟩
  have hsorted : List.Sorted (fun a b => b.sort_order ≤ a.sort_order) s :=
    List.sorted_insertionSort _ l
  have hmem : nbr ∈ l := hperm.mem_iff.mp (mem_of_head?_eq_some h)
  have hfilt := List.mem_filter.mp hmem
  have hcond := hfilt.2
  simp only [Bool.and_eq_true, beq_iff_eq, decide_eq_true_eq] at hcond
  refine ⟨hfilt.1, hcond.1, hcond.2, ?_⟩
  intro r hr htid hlt
  have hrl : r ∈ l := List.mem_filter.mpr ⟨hr, by simp [htid, hlt]⟩
  have hrs : r ∈ s := hperm.mem_iff.mpr hrl
  cases hcs : s with
  | nil => rw [hcs] at h; simp at h
  | cons a t =>
    rw [hcs] at h
    simp only [List.head?_cons, Option.some.injEq] at h
    rw [hcs] at hrs hsorted
    rw [h] at hsorted hrs
    rcases List.mem_cons.mp hrs with heq | hmem2
    · rw [heq]
    · have := List.rel_of_sorted_cons hsorted r hmem2
      simpa using this

/-- What a successful `neighborDown` lookup returns: a row of the same
template with larger `sort_order`, minimal among those (the nearest row
below). -/
theorem neighborDown_spec (tid o : Int) (db : Db) (nbr : TemplateExerciseRow)
    (h : neighborDown tid o db = some nbr) :
    nbr ∈ db.workout_template_exercises ∧ nbr.workout_template_id = tid ∧
    o < nbr.sort_order ∧
    (∀ r ∈ db.workout_template_exercises, r.workout_template_id = tid →
      o < r.sort_order → nbr.sort_order ≤ r.sort_order) := by
  unfold neighborDown at h
  set l := db.workout_template_exercises.filter
      (fun r => r.workout_template_id == tid && decide (o < r.sort_order)) with hl
  set s := List.insertionSort (fun a b => a.sort_order ≤ b.sort_order) l with hs
  have hperm : s.Perm l := List.perm_insertionSort _ l
  haveI hTot : IsTotal TemplateExerciseRow
      (fun a b => a.sort_order ≤ b.sort_order) :=
    ⟨fun a b => le_total a.sort_order b.sort_order⟩
  haveI hTrans : IsTrans TemplateExerciseRow
      (fun a b => a.sort_order ≤ b.sort_order) :=
    ⟨fun _ _ _ hab hbc => le_trans hab hbc⟩
  have hsorted : List.Sorted (fun a b => a.sort_order ≤ b.sort_order) s :=
    List.sorted_insertionSort _ l
  have hmem : nbr ∈ l := hperm.mem_iff.mp (mem_of_head?_eq_some h)
  have hfilt := List.mem_filter.mp hmem
  have hcond := hfilt.2
  simp only [Bool.and_eq_true, beq_iff_eq, decide_eq_true_eq] at hcond
  refine ⟨hfilt.1, hcond.1, hcond.2, ?_⟩
  intro r hr htid hlt
  have hrl : r ∈ l := List.mem_filter.mpr ⟨hr, by simp [htid, hlt]⟩
  have hrs : r ∈ s := hperm.mem_iff.mpr hrl
  cases hcs : s with
  | nil => rw [hcs] at h; simp at h
  | cons a t =>
    rw [hcs] at h
    simp only [List.head?_cons, Option.some.injEq] at h
    rw [hcs] at hrs hsorted
    rw [h] at hsorted hrs
    rcases List.mem_cons.mp hrs with heq | hmem2
    · rw [heq]
    · have := List.rel_of_sorted_cons hsorted r hmem2
      simpa using this

/-- When no row of the template sits above (below) the given `sort_order`,
the neighbor query is empty. -/
theorem neighborUp_eq_none (tid o : Int) (db : Db)
    (h : ∀ r ∈ db.workout_template_exercises, r.workout_template_id = tid →
      ¬ r.sort_order < o) :
    neighborUp tid o db = none := by
  unfold neighborUp
  have hnil : db.workout_template_exercises.filter
      (fun r => r.workout_template_id == tid && decide (r.sort_order < o)) = [] := by
    apply List.filter_eq_nil_iff.mpr
    intro r hr
    simp only [Bool.and_eq_true, beq_iff_eq, decide_eq_true_eq, not_and]
    exact h r hr
  rw [hnil]
  rfl

/-- Mirror image of `neighborUp_eq_none`. -/
theorem neighborDown_eq_none (tid o : Int) (db : Db)
    (h : ∀ r ∈ db.workout_template_exercises, r.workout_template_id = tid →
      ¬ o < r.sort_order) :
    neighborDown tid o db = none := by
  unfold neighborDown
  have hnil : db.workout_template_exercises.filter
      (fun r => r.workout_template_id == tid && decide (o < r.sort_order)) = [] := by
    apply List.filter_eq_nil_iff.mpr
    intro r hr
    simp only [Bool.and_eq_true, beq_iff_eq, decide_eq_true_eq, not_and]
    exact h r hr
  rw [hnil]
  rfl

/-- Unfolding of the move handler at direction `"up"`. -/
theorem moveExercise_up_eval (tid eid : Int) (db : Db) :
    moveExercise tid eid "up" db
      = (match findCur tid eid db with
         | none => (Resp.notFound, db)
         | some cur =>
           match neighborUp tid cur.sort_order db with
           | none => (Resp.okData, db)
           | some nbr => (Resp.okData, moveApply cur nbr db)) := rfl

/-- Unfolding of the move handler at direction `"down"`. -/
theorem moveExercise_down_eval (tid eid : Int) (db : Db) :
    moveExercise tid eid "down" db
      = (match findCur tid eid db with
         | none => (Resp.notFound, db)
         | some cur =>
           match neighborDown tid cur.sort_order db with
           | none => (Resp.okData, db)
           | some nbr => (Resp.okData, moveApply cur nbr db)) := rfl

/-- C5: when the moved row has a neighbor in the requested direction, the
move swaps exactly the two `sort_order` values of the moved row and the
nearest such neighbor, leaving every other row, field and table unchanged;
when the row is already first (`"up"`) or last (`"down"`), nothing changes. -/
theorem moveExercise_swaps_neighbor (tid eid : Int) (db : Db)
    (cur : TemplateExerciseRow)
    (hid : (db.workout_template_exercises.map (fun r => r.id)).Nodup)
    (hcur : findCur tid eid db = some cur) :
    (∀ nbr, neighborUp tid cur.sort_order db = some nbr →
      (nbr.workout_template_id = tid ∧ nbr.sort_order < cur.sort_order ∧
        (∀ r ∈ db.workout_template_exercises, r.workout_template_id = tid →
          r.sort_order < cur.sort_order → r.sort_order ≤ nbr.sort_order)) ∧
      (moveExercise tid eid "up" db).1 = .okData ∧
      (moveExercise tid eid "up" db).2.workout_template_exercises
        = db.workout_template_exercises.map
            (fun x => if x.id = cur.id then { x with sort_order := nbr.sort_order }
                      else if x.id = nbr.id then { x with sort_order := cur.sort_order }
                      else x) ∧
      (moveExercise tid eid "up" db).2.exercises = db.exercises ∧
      (moveExercise tid eid "up" db).2.workout_templates = db.workout_templates ∧
      (moveExercise tid eid "up" db).2.workout_plans = db.workout_plans ∧
      (moveExercise tid eid "up" db).2.workout_plan_exercises
        = db.workout_plan_exercises ∧
      (moveExercise tid eid "up" db).2.workout_sessions = db.workout_sessions ∧
      (moveExercise tid eid "up" db).2.exercise_sets = db.exercise_sets ∧
      (moveExercise tid eid "up" db).2.workout_calendar = db.workout_calendar) ∧
    ((∀ r ∈ db.workout_template_exercises, r.workout_template_id = tid →
        ¬ r.sort_order < cur.sort_order) →
      moveExercise tid eid "up" db = (.okData, db)) ∧
    (∀ nbr, neighborDown tid cur.sort_order db = some nbr →
      (nbr.workout_template_id = tid ∧ cur.sort_order < nbr.sort_order ∧
        (∀ r ∈ db.workout_template_exercises, r.workout_template_id = tid →
          cur.sort_order < r.sort_order → nbr.sort_order ≤ r.sort_order)) ∧
      (moveExercise tid eid "down" db).1 = .okData ∧
      (moveExercise tid eid "down" db).2.workout_template_exercises
        = db.workout_template_exercises.map
            (fun x => if x.id = cur.id then { x with sort_order := nbr.sort_order }
                      else if x.id = nbr.id then { x with sort_order := cur.sort_order }
                      else x) ∧
      (moveExercise tid eid "down" db).2.exercises = db.exercises ∧
      (moveExercise tid eid "down" db).2.workout_templates = db.workout_templates ∧
      (moveExercise tid eid "down" db).2.workout_plans = db.workout_plans ∧
      (moveExercise tid eid "down" db).2.workout_plan_exercises
        = db.workout_plan_exercises ∧
      (moveExercise tid eid "down" db).2.workout_sessions = db.workout_sessions ∧
      (moveExercise tid eid "down" db).2.exercise_sets = db.exercise_sets ∧
      (moveExercise tid eid "down" db).2.workout_calendar = db.workout_calendar) ∧
    ((∀ r ∈ db.workout_template_exercises, r.workout_template_id = tid →
        ¬ cur.sort_order < r.sort_order) →
      moveExercise tid eid "down" db = (.okData, db)) := by
  have hcurmem := List.mem_of_find?_eq_some hcur
  refine ⟨?_, ?_, ?_, ?_⟩
  · intro nbr hnbr
    obtain ⟨hnmem, hntid, hnlt, hnmax⟩ := neighborUp_spec tid cur.sort_order db nbr hnbr
    have hne : cur.id ≠ nbr.id := by
      intro hh
      have heq : cur = nbr := List.inj_on_of_nodup_map hid hcurmem hnmem hh
      rw [heq] at hnlt
      exact lt_irrefl _ hnlt
    have hval : moveExercise tid eid "up" db = (.okData, moveApply cur nbr db) := by
      rw [moveExercise_up_eval]
      simp only [hcur, hnbr]
    rw [hval]
    refine ⟨⟨hntid, hnlt, hnmax⟩, rfl, ?_, rfl, rfl, rfl, rfl, rfl, rfl, rfl⟩
    exact updateSortById_twice cur.id nbr.id nbr.sort_order cur.sort_order hne _
  · intro h
    rw [moveExercise_up_eval]
    simp only [hcur, neighborUp_eq_none tid cur.sort_order db h]
  · intro nbr hnbr
    obtain ⟨hnmem, hntid, hnlt, hnmin⟩ := neighborDown_spec tid cur.sort_order db nbr hnbr
    have hne : cur.id ≠ nbr.id := by
      intro hh
      have heq : cur = nbr := List.inj_on_of_nodup_map hid hcurmem hnmem hh
      rw [heq] at hnlt
      exact lt_irrefl _ hnlt
    have hval : moveExercise tid eid "down" db = (.okData, moveApply cur nbr db) := by
      rw [moveExercise_down_eval]
      simp only [hcur, hnbr]
    rw [hval]
    refine ⟨⟨hntid, hnlt, hnmin⟩, rfl, ?_, rfl, rfl, rfl, rfl, rfl, rfl, rfl⟩
    exact updateSortById_twice cur.id nbr.id nbr.sort_order cur.sort_order hne _
  · intro h
    rw [moveExercise_down_eval]
    simp only [hcur, neighborDown_eq_none tid cur.sort_order db h]

/-- Concrete instantiation of `moveExercise_swaps_neighbor`: in template 1
of `exDb`, moving exercise 11 up swaps the two sort orders, and moving
exercise 10 up (already first) changes nothing. -/
theorem moveExercise_swaps_neighbor_witness :
    (moveExercise 1 11 "up" exDb).1 = .okData ∧
    (moveExercise 1 11 "up" exDb).2.workout_template_exercises
      = [⟨100, 1, 10, 2, some 3, some "8", none⟩,
         ⟨101, 1, 11, 1, some 3, some "8", none⟩] ∧
    moveExercise 1 10 "up" exDb = (.okData, exDb) := by
  have h := moveExercise_swaps_neighbor 1 11 exDb
    ⟨101, 1, 11, 2, some 3, some "8", none⟩ (by decide) (by decide)
  have h2 := moveExercise_swaps_neighbor 1 10 exDb
    ⟨100, 1, 10, 1, some 3, some "8", none⟩ (by decide) (by decide)
  have hup := h.1 ⟨100, 1, 10, 1, some 3, some "8", none⟩ (by decide)
  refine ⟨hup.2.1, ?_, h2.2.1 (by decide)⟩
  rw [hup.2.2.1]
  decide

/-- A fold of whole-table UPDATE-by-id statements is the pointwise fold of
the single-row updates. -/
theorem foldl_updateSortById (ps : List (Nat × Int)) (l : List TemplateExerciseRow) :
    ps.foldl (fun acc p => updateSortById p.2 ((p.1 : Int) + 1) acc) l
      = l.map (fun x => ps.foldl
          (fun y p => if y.id == p.2 then { y with sort_order := ((p.1 : Int) + 1) } else y) x) := by
  induction ps generalizing l with
  | nil => simp
  | cons a as ih =>
    simp only [List.foldl_cons]
    rw [ih]
    simp only [updateSortById, List.map_map]
    rfl

/-- A row whose id is assigned by none of the updates is unchanged. -/
theorem foldl_assign_not_mem (ids : List Int) (k : Nat) (x : TemplateExerciseRow)
    (hx : x.id ∉ ids) :
    (ids.enumFrom k).foldl
      (fun y p => if y.id == p.2 then { y with sort_order := ((p.1 : Int) + 1) } else y) x
      = x := by
  induction ids generalizing k with
  | nil => rfl
  | cons a as ih =>
    simp only [List.mem_cons, not_or] at hx
    rw [List.enumFrom_cons]
    simp only [List.foldl_cons]
    rw [if_neg (by simp [hx.1])]
    exact ih (k + 1) hx.2

/-- A row whose id sits at position j of the (duplicate-free) update list
ends with `sort_order` k+j+1 and no other change. -/
theorem foldl_assign_at_pos (ids : List Int) (k j : Nat) (hj : j < ids.length)
    (hnd : ids.Nodup) (x : TemplateExerciseRow) (hx : x.id = ids.get ⟨j, hj⟩) :
    (ids.enumFrom k).foldl
      (fun y p => if y.id == p.2 then { y with sort_order := ((p.1 : Int) + 1) } else y) x
      = { x with sort_order := (((k + j : Nat) : Int) + 1) } := by
  induction ids generalizing k j x with
  | nil => exact absurd hj (Nat.not_lt_zero j)
  | cons a as ih =>
    rw [List.enumFrom_cons]
    simp only [List.foldl_cons]
    cases j with
    | zero =>
      have hxa : x.id = a := by simpa using hx
      rw [if_pos (by simp [hxa])]
      have hnot : ({ x with sort_order := ((k : Int) + 1) } : TemplateExerciseRow).id ∉ as := by
        show x.id ∉ as
        rw [hxa]
        exact (List.nodup_cons.mp hnd).1
      rw [foldl_assign_not_mem as (k + 1) _ hnot]
      simp
    | succ j' =>
      have hj' : j' < as.length := Nat.lt_of_succ_lt_succ hj
      have hget : x.id = as.get ⟨j', hj'⟩ := by simpa using hx
      have hxa : x.id ≠ a := by
        intro hh
        apply (List.nodup_cons.mp hnd).1
        rw [← hh, hget]
        exact List.get_mem as j' hj'
      rw [if_neg (by simp [hxa])]
      rw [ih (k + 1) j' hj' (List.nodup_cons.mp hnd).2 x hget]
      congr 1
      push_cast
      ring

/-- The position of a member of a duplicate-free projected list. -/
theorem indexOf_map_get {α β : Type} [DecidableEq β] (f : α → β) (l : List α)
    (hnd : (l.map f).Nodup) (a : α) (ha : a ∈ l) :
    ∃ h : (l.map f).indexOf (f a) < l.length,
      l.get ⟨(l.map f).indexOf (f a), h⟩ = a := by
  have hmem : f a ∈ l.map f := List.mem_map_of_mem f ha
  have hlt : (l.map f).indexOf (f a) < (l.map f).length :=
    List.indexOf_lt_length.mpr hmem
  have hlt2 : (l.map f).indexOf (f a) < l.length := by simpa using hlt
  refine ⟨hlt2, ?_⟩
  have hget : (l.map f).get ⟨(l.map f).indexOf (f a), hlt⟩ = f a :=
    List.indexOf_get hlt
  have hmap : (l.map f).get ⟨(l.map f).indexOf (f a), hlt⟩
      = f (l.get ⟨(l.map f).indexOf (f a), hlt2⟩) := by
    simp only [List.get_eq_getElem, List.getElem_map]
  have hfa : f (l.get ⟨(l.map f).indexOf (f a), hlt2⟩) = f a := by
    rw [← hmap]
    exact hget
  exact List.inj_on_of_nodup_map hnd
    (List.get_mem l ((l.map f).indexOf (f a)) hlt2) ha hfa

/-- Indexing a duplicate-free projected list recovers positions 0..N-1. -/
theorem map_indexOf_map_eq_range {α β : Type} [DecidableEq β] (f : α → β) (l : List α)
    (hnd : (l.map f).Nodup) :
    l.map (fun x => (l.map f).indexOf (f x)) = List.range l.length := by
  apply List.ext_get
  · simp
  · intro n h1 h2
    have hn : n < (l.map f).length := by simpa using h2
    have hn2 : n < l.length := by simpa using h2
    rw [List.get_eq_getElem, List.get_eq_getElem, List.getElem_map, List.getElem_range]
    have h3 : f (l.get ⟨n, hn2⟩) = (l.map f).get ⟨n, hn⟩ := by
      simp only [List.get_eq_getElem, List.getElem_map]
    show (l.map f).indexOf (f (l.get ⟨n, hn2⟩)) = n
    rw [h3]
    exact List.get_indexOf hnd ⟨n, hn⟩

/-- In a list sorted by `sort_order` with duplicate-free ids, a strictly
smaller `sort_order` means a strictly smaller position. -/
theorem sorted_indexOf_mono (l : List TemplateExerciseRow)
    (hs : List.Sorted (fun a b => a.sort_order ≤ b.sort_order) l)
    (hnd : (l.map (fun r => r.id)).Nodup)
    (a b : TemplateExerciseRow) (ha : a ∈ l) (hb : b ∈ l)
    (hlt : a.sort_order < b.sort_order) :
    (l.map (fun r => r.id)).indexOf a.id < (l.map (fun r => r.id)).indexOf b.id := by
  obtain ⟨hia, hga⟩ := indexOf_map_get (fun r => r.id) l hnd a ha
  obtain ⟨hib, hgb⟩ := indexOf_map_get (fun r => r.id) l hnd b hb
  by_contra hcon
  push_neg at hcon
  cases eq_or_lt_of_le hcon with
  | inl heq =>
    have hab : a = b := by
      rw [← hga, ← hgb]
      congr 1
      exact Fin.ext heq.symm
    rw [hab] at hlt
    exact lt_irrefl _ hlt
  | inr hlt2 =>
    have hrel := List.Sorted.rel_get_of_lt hs
      (Fin.mk_lt_mk.mpr hlt2 :
        (⟨(l.map (fun r => r.id)).indexOf b.id, hib⟩ : Fin l.length)
          < ⟨(l.map (fun r => r.id)).indexOf a.id, hia⟩)
    rw [hga, hgb] at hrel
    exact absurd hlt (not_lt.mpr hrel)

/-- Pointwise description of the delete-then-renumber handler: a remaining
row of the target template gets `sort_order` position+1 (position taken in
the old `sort_order` ordering), every other row is untouched. -/
theorem deleteTemplateExercise_characterization (tid eid : Int) (db : Db)
    (hid : (db.workout_template_exercises.map (fun r => r.id)).Nodup) :
    (deleteTemplateExercise tid eid db).2.workout_template_exercises
      = (remainingLinks tid eid db).map
          (fun x => if x.workout_template_id = tid
            then { x with sort_order :=
              ((((renumberOrder tid eid db).map (fun r => r.id)).indexOf x.id : Nat) : Int) + 1 }
            else x) := by
  have hid1 : ((remainingLinks tid eid db).map (fun r => r.id)).Nodup :=
    List.Nodup.sublist (List.Sublist.map _ (List.filter_sublist _)) hid
  have hid2 : (((remainingLinks tid eid db).filter
      (fun r => r.workout_template_id == tid)).map (fun r => r.id)).Nodup :=
    List.Nodup.sublist (List.Sublist.map _ (List.filter_sublist _)) hid1
  have hperm : (renumberOrder tid eid db).Perm
      ((remainingLinks tid eid db).filter (fun r => r.workout_template_id == tid)) :=
    List.perm_insertionSort _ _
  have hid3 : ((renumberOrder tid eid db).map (fun r => r.id)).Nodup :=
    (List.Perm.nodup_iff (List.Perm.map _ hperm)).mpr hid2
  show ((renumberOrder tid eid db).map (fun r => r.id)).enum.foldl
      (fun acc p => updateSortById p.2 ((p.1 : Int) + 1) acc)
      (remainingLinks tid eid db) = _
  rw [foldl_updateSortById]
  apply List.map_congr_left
  intro x hx
  by_cases htid : x.workout_template_id = tid
  · have hxmine : x ∈ (remainingLinks tid eid db).filter
        (fun r => r.workout_template_id == tid) :=
      List.mem_filter.mpr ⟨hx, by simp [htid]⟩
    have hxord : x ∈ renumberOrder tid eid db := hperm.mem_iff.mpr hxmine
    obtain ⟨hlt, hget⟩ :=
      indexOf_map_get (fun r => r.id) (renumberOrder tid eid db) hid3 x hxord
    have hlt2 : ((renumberOrder tid eid db).map (fun r => r.id)).indexOf x.id
        < ((renumberOrder tid eid db).map (fun r => r.id)).length := by
      simpa using hlt
    have hxid : x.id = ((renumberOrder tid eid db).map (fun r => r.id)).get
        ⟨((renumberOrder tid eid db).map (fun r => r.id)).indexOf x.id, hlt2⟩ := by
      have h4 : ((renumberOrder tid eid db).map (fun r => r.id)).get
          ⟨((renumberOrder tid eid db).map (fun r => r.id)).indexOf x.id, hlt2⟩
          = ((renumberOrder tid eid db).get
              ⟨((renumberOrder tid eid db).map (fun r => r.id)).indexOf x.id, hlt⟩).id := by
        simp only [List.get_eq_getElem, List.getElem_map]
      rw [h4, hget]
    have := foldl_assign_at_pos ((renumberOrder tid eid db).map (fun r => r.id))
      0 (((renumberOrder tid eid db).map (fun r => r.id)).indexOf x.id) hlt2 hid3 x hxid
    show (((renumberOrder tid eid db).map (fun r => r.id)).enumFrom 0).foldl _ x = _
    rw [this]
    simp [htid]
  · have hnotin : x.id ∉ (renumberOrder tid eid db).map (fun r => r.id) := by
      intro hmem
      obtain ⟨y, hy, hyid⟩ := List.mem_map.mp hmem
      have hymine : y ∈ (remainingLinks tid eid db).filter
          (fun r => r.workout_template_id == tid) := hperm.mem_iff.mp hy
      have hytid : y.workout_template_id = tid := by
        have := (List.mem_filter.mp hymine).2
        simpa using this
      have hydb : y ∈ db.workout_template_exercises :=
        List.mem_of_mem_filter (List.mem_of_mem_filter hymine)
      have hxdb : x ∈ db.workout_template_exercises := List.mem_of_mem_filter hx
      have hxy : y = x := List.inj_on_of_nodup_map hid hydb hxdb hyid
      rw [hxy] at hytid
      exact htid hytid
    show (((renumberOrder tid eid db).map (fun r => r.id)).enumFrom 0).foldl _ x = _
    rw [foldl_assign_not_mem _ 0 x hnotin]
    simp [htid]

/-- Assigning a property leaves the key set grown by at most that key. -/
theorem objInsert_keys_mem (l : List (String × String)) (k v x : String) :
    (x ∈ (objInsert l k v).map Prod.fst ↔ x ∈ l.map Prod.fst ∨ x = k) := by
  induction l with
  | nil => simp [objInsert]
  | cons p rest ih =>
    by_cases h : p.1 = k
    · rw [objInsert, if_pos (by simp [h])]
      simp only [List.map_cons, List.mem_cons]
      constructor
      · rintro (hx | hx)
        · exact Or.inl (Or.inl hx)
        · exact Or.inl (Or.inr hx)
      · rintro ((hx | hx) | hx)
        · exact Or.inl hx
        · exact Or.inr hx
        · rw [hx, ← h]; exact Or.inl rfl
    · rw [objInsert, if_neg (by simp [h])]
      simp only [List.map_cons, List.mem_cons, ih]
      tauto

/-- Assigning a property keeps the key set duplicate-free. -/
theorem objInsert_keys_nodup (l : List (String × String)) (k v : String)
    (hnd : (l.map Prod.fst).Nodup) : ((objInsert l k v).map Prod.fst).Nodup := by
  induction l with
  | nil => simp [objInsert]
  | cons p rest ih =>
    rw [List.map_cons, List.nodup_cons] at hnd
    by_cases h : p.1 = k
    · rw [objInsert, if_pos (by simp [h])]
      simp only [List.map_cons, List.nodup_cons]
      exact hnd
    · rw [objInsert, if_neg (by simp [h])]
      simp only [List.map_cons, List.nodup_cons]
      constructor
      · intro hmem
        rcases (objInsert_keys_mem rest k v p.1).mp hmem with hx | hx
        · exact hnd.1 hx
        · exact h hx
      · exact ih hnd.2

/-- Reading a property straight after assigning it gives the new value. -/
theorem objGet_objInsert_self (l : List (String × String)) (k v : String) :
    objGet (objInsert l k v) k = some v := by
  induction l with
  | nil => simp [objInsert, objGet]
  | cons p rest ih =>
    by_cases h : p.1 = k
    · rw [objInsert, if_pos (by simp [h])]
      rw [objGet, List.find?_cons_of_pos _ (by simp [h])]
      rfl
    · rw [objInsert, if_neg (by simp [h])]
      rw [objGet, List.find?_cons_of_neg _ (by simp [h])]
      exact ih

/-- Assigning one property does not change another. -/
theorem objGet_objInsert_other (l : List (String × String)) (k k2 v : String)
    (hne : k ≠ k2) : objGet (objInsert l k2 v) k = objGet l k := by
  induction l with
  | nil =>
    rw [objInsert, objGet,
      List.find?_cons_of_neg _ (by simp; exact fun hh => hne hh.symm)]
    rfl
  | cons p rest ih =>
    by_cases h : p.1 = k2
    · rw [objInsert, if_pos (by simp [h])]
      have hpk : ¬ p.1 = k := by rw [h]; exact fun hh => hne hh.symm
      rw [objGet, objGet, List.find?_cons_of_neg _ (by simp [hpk]),
        List.find?_cons_of_neg _ (by simp [hpk])]
    · rw [objInsert, if_neg (by simp [h])]
      by_cases hpk : p.1 = k
      · rw [objGet, objGet, List.find?_cons_of_pos _ (by simp [hpk]),
          List.find?_cons_of_pos _ (by simp [hpk])]
      · rw [objGet, objGet, List.find?_cons_of_neg _ (by simp [hpk]),
          List.find?_cons_of_neg _ (by simp [hpk])]
        exact ih

/-- A fold of assignments whose keys all differ from `key` leaves `key`'s
binding untouched. -/
theorem objGet_foldl_not_mem (ps : List (Nat × String))
    (f : Nat × String → String) (obj : List (String × String)) (key : String)
    (h : ∀ p ∈ ps, p.2 ≠ key) :
    objGet (ps.foldl (fun o p => objInsert o p.2 (f p)) obj) key
      = objGet obj key := by
  induction ps generalizing obj with
  | nil => rfl
  | cons a as ih =>
    simp only [List.foldl_cons]
    rw [ih _ (fun p hp => h p (List.mem_cons_of_mem a hp))]
    exact objGet_objInsert_other obj key a.2 (f a)
      (fun hh => h a (List.mem_cons_self a as) hh.symm)

/-- Keys present after a fold of assignments: the old keys plus the
assigned ones. -/
theorem keys_foldl_mem (ps : List (Nat × String)) (f : Nat × String → String)
    (obj : List (String × String)) (x : String) :
    (x ∈ (ps.foldl (fun o p => objInsert o p.2 (f p)) obj).map Prod.fst
      ↔ x ∈ obj.map Prod.fst ∨ x ∈ ps.map Prod.snd) := by
  induction ps generalizing obj with
  | nil => simp
  | cons a as ih =>
    simp only [List.foldl_cons, List.map_cons, List.mem_cons]
    rw [ih, objInsert_keys_mem]
    tauto

/-- A fold of assignments keeps the key set duplicate-free. -/
theorem keys_foldl_nodup (ps : List (Nat × String)) (f : Nat × String → String)
    (obj : List (String × String)) (hnd : (obj.map Prod.fst).Nodup) :
    ((ps.foldl (fun o p => objInsert o p.2 (f p)) obj).map Prod.fst).Nodup := by
  induction ps generalizing obj with
  | nil => exact hnd
  | cons a as ih =>
    simp only [List.foldl_cons]
    exact ih _ (objInsert_keys_nodup obj a.2 (f a) hnd)

/-- With duplicate-free headers, the row object's value under header j is
the trimmed j-th cell (empty when the cell is missing). -/
theorem objGet_foldl_enumFrom (headers cols : List String) (k : Nat)
    (obj : List (String × String)) (hnd : headers.Nodup)
    (j : Nat) (hj : j < headers.length) :
    objGet ((headers.enumFrom k).foldl
        (fun o p => objInsert o p.2 (jsTrim (cols.getD p.1 ""))) obj)
      (headers.get ⟨j, hj⟩)
      = some (jsTrim (cols.getD (k + j) "")) := by
  induction headers generalizing k j obj with
  | nil => exact absurd hj (Nat.not_lt_zero j)
  | cons a as ih =>
    rw [List.enumFrom_cons]
    simp only [List.foldl_cons]
    cases j with
    | zero =>
      have hkey : (a :: as).get ⟨0, hj⟩ = a := List.get_cons_zero
      rw [hkey]
      have hnot : ∀ p ∈ List.enumFrom (k + 1) as, p.2 ≠ a := by
        intro p hp hpa
        apply (List.nodup_cons.mp hnd).1
        rw [← hpa]
        have : p.2 ∈ (List.enumFrom (k + 1) as).map Prod.snd :=
          List.mem_map_of_mem Prod.snd hp
        rwa [List.enumFrom_map_snd] at this
      rw [objGet_foldl_not_mem _ _ _ a hnot]
      rw [objGet_objInsert_self]
      simp
    | succ j2 =>
      have hj2 : j2 < as.length := Nat.lt_of_succ_lt_succ hj
      have hkey : (a :: as).get ⟨j2 + 1, hj⟩ = as.get ⟨j2, hj2⟩ :=
        List.get_cons_succ
      rw [hkey]
      rw [ih (k + 1) _ (List.nodup_cons.mp hnd).2 j2 hj2]
      have harith : k + 1 + j2 = k + (j2 + 1) := by omega
      rw [harith]

/-- Assigning a property keeps the key list unchanged when the key already
exists, else appends the key. -/
theorem objInsert_keys_eq (l : List (String × String)) (k v : String) :
    (objInsert l k v).map Prod.fst
      = (if l.any (fun p => p.1 == k) then l.map Prod.fst
         else l.map Prod.fst ++ [k]) := by
  induction l with
  | nil => simp [objInsert]
  | cons p rest ih =>
    by_cases h : p.1 = k
    · rw [objInsert, if_pos (by simp [h])]
      rw [if_pos (by simp [List.any_cons, h])]
      simp
    · rw [objInsert, if_neg (by simp [h])]
      simp only [List.map_cons]
      rw [ih]
      by_cases h2 : rest.any (fun p => p.1 == k)
      · rw [if_pos h2, if_pos (by simp [List.any_cons, h2])]
      · rw [if_neg h2, if_neg (by simp [List.any_cons, h, h2])]
        simp

/-- Keys accumulated by a fold of assignments: the old keys followed by
the newly assigned keys in first-occurrence order. -/
theorem keys_foldl_firstOcc (ps : List (Nat × String))
    (f : Nat × String → String) (obj : List (String × String)) :
    (ps.foldl (fun o p => objInsert o p.2 (f p)) obj).map Prod.fst
      = obj.map Prod.fst
        ++ firstOccurrences (obj.map Prod.fst) (ps.map Prod.snd) := by
  induction ps generalizing obj with
  | nil => simp [firstOccurrences]
  | cons a t ih =>
    simp only [List.foldl_cons, List.map_cons]
    rw [ih, objInsert_keys_eq, firstOccurrences]
    have hany : ∀ o : List (String × String),
        ((o.map Prod.fst).any (fun x => x == a.2))
          = (o.any (fun p => p.1 == a.2)) := by
      intro o
      induction o with
      | nil => rfl
      | cons q r ihq => simp only [List.map_cons, List.any_cons, ihq]
    have hany := hany obj
    by_cases h : obj.any (fun p => p.1 == a.2)
    · rw [if_pos h, if_pos (by rw [hany]; exact h)]
    · rw [if_neg h, if_neg (by rw [hany]; exact h)]
      rw [List.append_assoc]
      rfl

/-- A key produced by `firstOccurrences` was not already seen. -/
theorem firstOccurrences_not_seen (l : List String) :
    ∀ seen : List String, ∀ x ∈ firstOccurrences seen l,
      (seen.any (fun y => y == x)) = false := by
  induction l with
  | nil =>
    intro seen x hx
    simp [firstOccurrences] at hx
  | cons k t ih =>
    intro seen x hx
    rw [firstOccurrences] at hx
    by_cases h : seen.any (fun y => y == k)
    · rw [if_pos h] at hx
      exact ih seen x hx
    · rw [if_neg h] at hx
      rcases List.mem_cons.mp hx with heq | hmem
      · rw [heq]
        exact Bool.not_eq_true _ ▸ h
      · have h2 := ih (seen ++ [k]) x hmem
        rw [List.any_append] at h2
        exact (Bool.or_eq_false_iff.mp h2).1

/-- `firstOccurrences` lists its keys in strictly increasing order of
their first occurrence in the scanned list. -/
theorem firstOccurrences_pairwise_indexOf (l : List String) :
    ∀ seen : List String,
      List.Pairwise (fun a b => l.indexOf a < l.indexOf b)
        (firstOccurrences seen l) := by
  induction l with
  | nil =>
    intro seen
    simp [firstOccurrences]
  | cons h t ih =>
    intro seen
    rw [firstOccurrences]
    by_cases hc : seen.any (fun x => x == h)
    · rw [if_pos hc]
      apply List.Pairwise.imp_of_mem ?_ (ih seen)
      intro a b ha hb hr
      have hah : a ≠ h := by
        intro heq
        have := firstOccurrences_not_seen t seen a ha
        rw [heq, hc] at this
        exact Bool.noConfusion this
      have hbh : b ≠ h := by
        intro heq
        have := firstOccurrences_not_seen t seen b hb
        rw [heq, hc] at this
        exact Bool.noConfusion this
      rw [List.indexOf_cons_ne t (Ne.symm hah), List.indexOf_cons_ne t (Ne.symm hbh)]
      exact Nat.succ_lt_succ hr
    · rw [if_neg hc]
      have hne : ∀ x ∈ firstOccurrences (seen ++ [h]) t, x ≠ h := by
        intro x hx heq
        have h2 := firstOccurrences_not_seen t (seen ++ [h]) x hx
        rw [List.any_append] at h2
        have h3 := (Bool.or_eq_false_iff.mp h2).2
        rw [heq] at h3
        simp at h3
      apply List.Pairwise.cons
      · intro b hb
        rw [List.indexOf_cons_self, List.indexOf_cons_ne t (Ne.symm (hne b hb))]
        exact Nat.succ_pos _
      · apply List.Pairwise.imp_of_mem ?_ (ih (seen ++ [h]))
        intro a b ha hb hr
        rw [List.indexOf_cons_ne t (Ne.symm (hne a ha)),
          List.indexOf_cons_ne t (Ne.symm (hne b hb))]
        exact Nat.succ_lt_succ hr

/-- Reading key k after the assignment fold yields the cell of k's last
column, or the prior binding when no column bears k. -/
theorem objGet_foldl_lastIdx (headers : List String) (k : String)
    (cols : List String) :
    ∀ (i : Nat) (obj : List (String × String)),
      objGet ((headers.enumFrom i).foldl
          (fun o p => objInsert o p.2 (jsTrim (cols.getD p.1 ""))) obj) k
        = (match lastIdxFrom k i headers with
           | some j => some (jsTrim (cols.getD j ""))
           | none => objGet obj k) := by
  induction headers with
  | nil =>
    intro i obj
    rfl
  | cons h t ih =>
    intro i obj
    rw [List.enumFrom_cons]
    simp only [List.foldl_cons]
    rw [ih (i + 1) (objInsert obj h (jsTrim (cols.getD i "")))]
    rw [lastIdxFrom]
    cases hlast : lastIdxFrom k (i + 1) t with
    | some j => rfl
    | none =>
      by_cases hk : h = k
      · rw [if_pos (by simp [hk])]
        rw [hk]
        exact objGet_objInsert_self obj k (jsTrim (cols.getD i ""))
      · rw [if_neg (by simp [hk])]
        exact objGet_objInsert_other obj k h (jsTrim (cols.getD i ""))
          (fun heq => hk heq.symm)

/-- With no occurrence of k, `lastIdxFrom` finds nothing. -/
theorem lastIdxFrom_eq_none (k : String) (l : List String)
    (h : ∀ j, ∀ hj : j < l.length, l.get ⟨j, hj⟩ ≠ k) :
    ∀ i, lastIdxFrom k i l = none := by
  induction l with
  | nil =>
    intro i
    rfl
  | cons a t ih =>
    intro i
    rw [lastIdxFrom]
    have ht : ∀ j, ∀ hj : j < t.length, t.get ⟨j, hj⟩ ≠ k :=
      fun j hj => h (j + 1) (Nat.succ_lt_succ hj)
    rw [ih ht (i + 1)]
    have ha : ¬ a = k := h 0 (Nat.succ_pos t.length)
    rw [if_neg (by simp [ha])]

/-- At the position of the last occurrence of k, `lastIdxFrom` returns it. -/
theorem lastIdxFrom_eq_last (k : String) (l : List String) :
    ∀ (i j : Nat) (hj : j < l.length), l.get ⟨j, hj⟩ = k →
      (∀ j2, ∀ hj2 : j2 < l.length, j < j2 → l.get ⟨j2, hj2⟩ ≠ k) →
      lastIdxFrom k i l = some (i + j) := by
  induction l with
  | nil =>
    intro i j hj
    exact absurd hj (Nat.not_lt_zero j)
  | cons a t ih =>
    intro i j hj hget hlast
    rw [lastIdxFrom]
    cases j with
    | zero =>
      have hnone : lastIdxFrom k (i + 1) t = none := by
        apply lastIdxFrom_eq_none
        intro j2 hj2
        exact hlast (j2 + 1) (Nat.succ_lt_succ hj2) (Nat.succ_pos j2)
      rw [hnone]
      have ha : a = k := hget
      rw [if_pos (by simp [ha])]
      rfl
    | succ j2 =>
      have hj2 : j2 < t.length := Nat.lt_of_succ_lt_succ hj
      have hget2 : t.get ⟨j2, hj2⟩ = k := hget
      have hlast2 : ∀ j3, ∀ hj3 : j3 < t.length, j2 < j3 → t.get ⟨j3, hj3⟩ ≠ k :=
        fun j3 hj3 hlt => hlast (j3 + 1) (Nat.succ_lt_succ hj3) (Nat.succ_lt_succ hlt)
      rw [ih (i + 1) j2 hj2 hget2 hlast2]
      have : i + 1 + j2 = i + (j2 + 1) := by omega
      rw [this]

/-- C10 (amended): `parseTSV` is total; empty or whitespace-only input
yields no headers and no rows; otherwise the headers are the trimmed
tab-cells of the first non-blank line and there is exactly one row object
per further non-blank line.  A row's keys are the distinct headers (JS
object assignment collapses duplicated headers), and when the headers are
duplicate-free the value under header j is the trimmed j-th cell of its
line, the empty string when the cell is missing, with cells beyond the
headers discarded.  Moreover every row's key list is exactly the distinct
headers in first-occurrence order (pinned both as `firstOccurrences` and
by pairwise-increasing `indexOf` into the header list), and — with no
duplicate-freeness assumption — the value stored under a header is the
trimmed cell of the LAST column bearing that header. -/
theorem parseTSV_shape_amended (s : String) :
    (tsvText s = "" → parseTSV s = ([], [])) ∧
    (tsvText s ≠ "" →
      (parseTSV s).1 = (jsSplit '\t' ((tsvLines s).headD "")).map jsTrim ∧
      (parseTSV s).2 = ((tsvLines s).drop 1).map
          (fun line => rowObj (parseTSV s).1 (jsSplit '\t' line)) ∧
      (parseTSV s).2.length = (tsvLines s).length - 1) ∧
    (∀ row ∈ (parseTSV s).2,
      (row.map Prod.fst).Nodup ∧
      (∀ k, k ∈ row.map Prod.fst ↔ k ∈ (parseTSV s).1)) ∧
    ((parseTSV s).1.Nodup →
      ∀ line, ∀ j, ∀ hj : j < (parseTSV s).1.length,
        objGet (rowObj (parseTSV s).1 (jsSplit '\t' line))
            ((parseTSV s).1.get ⟨j, hj⟩)
          = some (jsTrim ((jsSplit '\t' line).getD j ""))) ∧
    (∀ row ∈ (parseTSV s).2,
      row.map Prod.fst = firstOccurrences [] (parseTSV s).1 ∧
      List.Pairwise
        (fun a b => (parseTSV s).1.indexOf a < (parseTSV s).1.indexOf b)
        (row.map Prod.fst)) ∧
    (∀ line k j, ∀ hj : j < (parseTSV s).1.length,
      (parseTSV s).1.get ⟨j, hj⟩ = k →
      (∀ j2, ∀ hj2 : j2 < (parseTSV s).1.length, j < j2 →
        (parseTSV s).1.get ⟨j2, hj2⟩ ≠ k) →
      objGet (rowObj (parseTSV s).1 (jsSplit '\t' line)) k
        = some (jsTrim ((jsSplit '\t' line).getD j ""))) := by
  refine ⟨?_, ?_, ?_, ?_, ?_, ?_⟩
  · intro h
    rw [parseTSV, if_pos (by simp [h])]
  · intro h
    rw [parseTSV, if_neg (by simp [h])]
    exact ⟨rfl, rfl, by simp⟩
  · intro row hrow
    have hcases : tsvText s = "" ∨ tsvText s ≠ "" := em _
    rcases hcases with h | h
    · rw [parseTSV, if_pos (by simp [h])] at hrow
      simp at hrow
    · rw [parseTSV, if_neg (by simp [h])] at hrow
      simp only [List.mem_map] at hrow
      obtain ⟨line, _, hline⟩ := hrow
      rw [parseTSV, if_neg (by simp [h])]
      rw [← hline]
      constructor
      · exact keys_foldl_nodup _ _ [] (by simp)
      · intro k
        rw [rowObj, keys_foldl_mem, List.enum_map_snd]
        simp
  · intro hnd line j hj
    have h := objGet_foldl_enumFrom (parseTSV s).1 (jsSplit '\t' line) 0 [] hnd j hj
    rw [rowObj]
    show objGet ((List.enumFrom 0 (parseTSV s).1).foldl _ []) _ = _
    rw [h]
    simp
  · intro row hrow
    have hcases : tsvText s = "" ∨ tsvText s ≠ "" := em _
    rcases hcases with h | h
    · rw [parseTSV, if_pos (by simp [h])] at hrow
      simp at hrow
    · have h2 : (parseTSV s).2 = ((tsvLines s).drop 1).map
          (fun line => rowObj (parseTSV s).1 (jsSplit '\t' line)) := by
        rw [parseTSV, if_neg (by simp [h])]
      rw [h2] at hrow
      simp only [List.mem_map] at hrow
      obtain ⟨line, _, hline⟩ := hrow
      have hkeys : row.map Prod.fst = firstOccurrences [] (parseTSV s).1 := by
        rw [← hline, rowObj, keys_foldl_firstOcc, List.enum_map_snd]
        simp
      refine ⟨hkeys, ?_⟩
      rw [hkeys]
      exact firstOccurrences_pairwise_indexOf (parseTSV s).1 []
  · intro line k j hj hget hlast
    rw [rowObj]
    show objGet ((List.enumFrom 0 (parseTSV s).1).foldl _ []) _ = _
    rw [objGet_foldl_lastIdx (parseTSV s).1 k (jsSplit '\t' line) 0 []]
    rw [lastIdxFrom_eq_last k (parseTSV s).1 0 j hj hget hlast]
    simp

/-- C10 counterexample: on input with a duplicated header the row object's
keys are not the header list. -/
theorem parseTSV_duplicate_header_keys :
    ((parseTSV "a\ta\nx\ty").2.headD []).map Prod.fst
      ≠ (parseTSV "a\ta\nx\ty").1 := by
  decide

/-- Concrete instantiation of `parseTSV_shape_amended`, including the
last-wins conjunct at the duplicated header list built from "a\ta". -/
theorem parseTSV_shape_amended_witness :
    parseTSV "h1\th2\n v1 " = (["h1", "h2"], [[("h1", "v1"), ("h2", "")]]) ∧
    objGet (rowObj (parseTSV "h1\th2\n v1 ").1 (jsSplit '\t' " v1 "))
        ((parseTSV "h1\th2\n v1 ").1.get ⟨1, by decide⟩)
      = some (jsTrim ((jsSplit '\t' " v1 ").getD 1 "")) ∧
    objGet (rowObj (parseTSV "a\ta\nx\ty").1 (jsSplit '\t' "x\ty")) "a"
      = some (jsTrim ((jsSplit '\t' "x\ty").getD 1 "")) := by
  have h := parseTSV_shape_amended "h1\th2\n v1 "
  have h2 := parseTSV_shape_amended "a\ta\nx\ty"
  exact ⟨by decide, h.2.2.2.1 (by decide) " v1 " 1 (by decide),
    h2.2.2.2.2.2 "x\ty" "a" 1 (by decide) (by decide) (by decide)⟩

/-- Sorts of a plan's rows after the importer's insert loop: the old ones
followed by one value per item. -/
theorem insertPlanItems_filter_sorts (planId : Int) (exMap : List (String × Int))
    (its : List ImportItem) (db : Db) :
    ((insertPlanItems db planId exMap its).workout_plan_exercises.filter
        (fun r => r.plan_id == planId)).map (fun r => r.sort_order)
      = (db.workout_plan_exercises.filter
          (fun r => r.plan_id == planId)).map (fun r => r.sort_order)
        ++ its.map (fun it => it.sort_order.getD 0) := by
  induction its generalizing db with
  | nil => simp [insertPlanItems]
  | cons it rest ih =>
    rw [insertPlanItems]
    rw [ih]
    simp only [List.filter_append, List.map_append]
    rw [List.filter_cons]
    rw [if_pos (by simp)]
    simp

/-- The values assigned by `sort_order: x.sort_order ?? idx + 1`. -/
theorem assignSortOrders_values (items : List ImportItem) :
    (assignSortOrders items).map (fun it => it.sort_order.getD 0)
      = items.enum.map (fun p => p.2.sort_order.getD ((p.1 : Int) + 1)) := by
  rw [assignSortOrders, List.map_map]
  rfl

/-- C4 (amended): after removing an exercise from a template the remaining
rows of that template carry exactly the sort orders 1..N — contiguously in
the previous `sort_order` order, with strictly increasing old sorts kept in
order — and rows of other templates are untouched.  The TSV importer's
replace-mode delete-then-insert, by contrast, gives each inserted row the
file's `sort_order` value, defaulting to file position + 1 only when the
cell is blank, so its result is 1..N only for files without explicit sort
orders. -/
theorem sortOrder_renumbering_amended (tid eid : Int) (db : Db)
    (hid : (db.workout_template_exercises.map (fun r => r.id)).Nodup) :
    ((deleteTemplateExercise tid eid db).2.workout_template_exercises.filter
        (fun r => !(r.workout_template_id == tid)))
      = db.workout_template_exercises.filter
          (fun r => !(r.workout_template_id == tid)) ∧
    (((deleteTemplateExercise tid eid db).2.workout_template_exercises.filter
        (fun r => r.workout_template_id == tid)).map (fun r => r.sort_order)).Perm
      (oneToN (renumberOrder tid eid db).length) ∧
    ((renumberOrder tid eid db).map (fun r =>
        (((renumberOrder tid eid db).map (fun q => q.id)).indexOf r.id : Int) + 1))
      = oneToN (renumberOrder tid eid db).length ∧
    (∀ a ∈ (remainingLinks tid eid db).filter (fun r => r.workout_template_id == tid),
     ∀ b ∈ (remainingLinks tid eid db).filter (fun r => r.workout_template_id == tid),
      a.sort_order < b.sort_order →
        ((((renumberOrder tid eid db).map (fun q => q.id)).indexOf a.id : Int) + 1)
          < ((((renumberOrder tid eid db).map (fun q => q.id)).indexOf b.id : Int) + 1)) ∧
    (∀ planId exMap items (db2 : Db),
      (∀ r ∈ db2.workout_plan_exercises, r.plan_id ≠ planId) →
      ((insertPlanItems db2 planId exMap (assignSortOrders items)).workout_plan_exercises.filter
          (fun r => r.plan_id == planId)).map (fun r => r.sort_order)
        = items.enum.map (fun p => p.2.sort_order.getD ((p.1 : Int) + 1))) := by
  have hchar := deleteTemplateExercise_characterization tid eid db hid
  have hid1 : ((remainingLinks tid eid db).map (fun r => r.id)).Nodup :=
    List.Nodup.sublist (List.Sublist.map _ (List.filter_sublist _)) hid
  have hid2 : (((remainingLinks tid eid db).filter
      (fun r => r.workout_template_id == tid)).map (fun r => r.id)).Nodup :=
    List.Nodup.sublist (List.Sublist.map _ (List.filter_sublist _)) hid1
  have hperm : (renumberOrder tid eid db).Perm
      ((remainingLinks tid eid db).filter (fun r => r.workout_template_id == tid)) :=
    List.perm_insertionSort _ _
  have hid3 : ((renumberOrder tid eid db).map (fun r => r.id)).Nodup :=
    (List.Perm.nodup_iff (List.Perm.map _ hperm)).mpr hid2
  have hrange : (renumberOrder tid eid db).map (fun r =>
      (((renumberOrder tid eid db).map (fun q => q.id)).indexOf r.id : Int) + 1)
      = oneToN (renumberOrder tid eid db).length := by
    have hbase := map_indexOf_map_eq_range (fun q => q.id)
      (renumberOrder tid eid db) hid3
    have hcomp : (renumberOrder tid eid db).map (fun r =>
        (((renumberOrder tid eid db).map (fun q => q.id)).indexOf r.id : Int) + 1)
        = ((renumberOrder tid eid db).map (fun r =>
            ((renumberOrder tid eid db).map (fun q => q.id)).indexOf r.id)).map
              (fun n : Nat => (n : Int) + 1) := by
      rw [List.map_map]
      rfl
    rw [hcomp, hbase]
    rfl
  refine ⟨?_, ?_, hrange, ?_, ?_⟩
  · rw [hchar, List.filter_map]
    have hfun : ((remainingLinks tid eid db).filter
        ((fun r => !(r.workout_template_id == tid)) ∘
          (fun x => if x.workout_template_id = tid
            then { x with sort_order :=
              ((((renumberOrder tid eid db).map (fun r => r.id)).indexOf x.id : Nat) : Int) + 1 }
            else x)))
        = (remainingLinks tid eid db).filter
            (fun r => !(r.workout_template_id == tid)) := by
      apply List.filter_congr
      intro x _
      by_cases hx : x.workout_template_id = tid
      · simp [Function.comp, hx]
      · simp [Function.comp, hx]
    rw [hfun]
    have hmapid : ((remainingLinks tid eid db).filter
        (fun r => !(r.workout_template_id == tid))).map
          (fun x => if x.workout_template_id = tid
            then { x with sort_order :=
              ((((renumberOrder tid eid db).map (fun r => r.id)).indexOf x.id : Nat) : Int) + 1 }
            else x)
        = ((remainingLinks tid eid db).filter
            (fun r => !(r.workout_template_id == tid))) := by
      have h2 : ∀ x ∈ (remainingLinks tid eid db).filter
          (fun r => !(r.workout_template_id == tid)),
          (if x.workout_template_id = tid
            then { x with sort_order :=
              ((((renumberOrder tid eid db).map (fun r => r.id)).indexOf x.id : Nat) : Int) + 1 }
            else x) = x := by
        intro x hx
        have := (List.mem_filter.mp hx).2
        simp only [Bool.not_eq_eq_eq_not, Bool.not_true, beq_eq_false_iff_ne, ne_eq] at this
        rw [if_neg this]
      rw [List.map_congr_left h2]
      exact List.map_id' _
    rw [hmapid]
    rw [remainingLinks, List.filter_filter]
    apply List.filter_congr
    intro x _
    by_cases hx : x.workout_template_id = tid
    · simp [hx]
    · simp [hx]
  · rw [hchar, List.filter_map]
    have hfun : ((remainingLinks tid eid db).filter
        ((fun r => r.workout_template_id == tid) ∘
          (fun x => if x.workout_template_id = tid
            then { x with sort_order :=
              ((((renumberOrder tid eid db).map (fun r => r.id)).indexOf x.id : Nat) : Int) + 1 }
            else x)))
        = (remainingLinks tid eid db).filter
            (fun r => r.workout_template_id == tid) := by
      apply List.filter_congr
      intro x _
      by_cases hx : x.workout_template_id = tid
      · simp [Function.comp, hx]
      · simp [Function.comp, hx]
    rw [hfun]
    have hsorts : (((remainingLinks tid eid db).filter
        (fun r => r.workout_template_id == tid)).map
          (fun x => if x.workout_template_id = tid
            then { x with sort_order :=
              ((((renumberOrder tid eid db).map (fun r => r.id)).indexOf x.id : Nat) : Int) + 1 }
            else x)).map (fun r => r.sort_order)
        = ((remainingLinks tid eid db).filter
            (fun r => r.workout_template_id == tid)).map
              (fun x => (((renumberOrder tid eid db).map (fun q => q.id)).indexOf x.id : Int) + 1) := by
      rw [List.map_map]
      apply List.map_congr_left
      intro x hx
      have htid : x.workout_template_id = tid := by
        have := (List.mem_filter.mp hx).2
        simpa using this
      simp [Function.comp, htid]
    rw [hsorts]
    have hp2 : (((remainingLinks tid eid db).filter
        (fun r => r.workout_template_id == tid)).map
          (fun x => (((renumberOrder tid eid db).map (fun q => q.id)).indexOf x.id : Int) + 1)).Perm
        ((renumberOrder tid eid db).map
          (fun x => (((renumberOrder tid eid db).map (fun q => q.id)).indexOf x.id : Int) + 1)) :=
      List.Perm.map _ hperm.symm
    rw [hrange] at hp2
    exact hp2
  · intro a ha b hb hlt
    haveI : IsTotal TemplateExerciseRow (fun a b => a.sort_order ≤ b.sort_order) :=
      ⟨fun a b => le_total a.sort_order b.sort_order⟩
    haveI : IsTrans TemplateExerciseRow (fun a b => a.sort_order ≤ b.sort_order) :=
      ⟨fun _ _ _ hab hbc => le_trans hab hbc⟩
    have hs : List.Sorted (fun a b => a.sort_order ≤ b.sort_order)
        (renumberOrder tid eid db) := List.sorted_insertionSort _ _
    have hmono := sorted_indexOf_mono (renumberOrder tid eid db) hs hid3
      a b (hperm.mem_iff.mpr ha) (hperm.mem_iff.mpr hb) hlt
    have : ((((renumberOrder tid eid db).map (fun q => q.id)).indexOf a.id : Nat) : Int)
        < ((((renumberOrder tid eid db).map (fun q => q.id)).indexOf b.id : Nat) : Int) := by
      exact_mod_cast hmono
    omega
  · intro planId exMap items db2 hclean
    rw [insertPlanItems_filter_sorts]
    have hnil : db2.workout_plan_exercises.filter (fun r => r.plan_id == planId) = [] := by
      apply List.filter_eq_nil_iff.mpr
      intro r hr
      simp [hclean r hr]
    rw [hnil]
    simp only [List.map_nil, List.nil_append]
    exact assignSortOrders_values items

/-- C4 counterexample: a replace-mode import whose file gives `sort_order`
5 succeeds and leaves the plan's single row with `sort_order` 5, not the
contiguous 1..N = [1] the claim asks for. -/
theorem importPlans_replace_sort_not_contiguous :
    (importPlans
        (some "plan_name\tbase_template_name\texercise_name\tsort_order\nP\tT\tE\t5")
        false "replace" impExDb).1 = .okImport false 0 1 1 ∧
    (((importPlans
        (some "plan_name\tbase_template_name\texercise_name\tsort_order\nP\tT\tE\t5")
        false "replace" impExDb).2.workout_plan_exercises.filter
        (fun r => r.plan_id == 2)).map (fun r => r.sort_order)) = [5] ∧
    (((importPlans
        (some "plan_name\tbase_template_name\texercise_name\tsort_order\nP\tT\tE\t5")
        false "replace" impExDb).2.workout_plan_exercises.filter
        (fun r => r.plan_id == 2)).map (fun r => r.sort_order)) ≠ [1] := by
  refine ⟨by decide, by decide, by decide⟩

/-- Concrete instantiation of `sortOrder_renumbering_amended`: deleting
exercise 10 from template 1 of `exDb` leaves the remaining row with
`sort_order` 1. -/
theorem sortOrder_renumbering_amended_witness :
    ((deleteTemplateExercise 1 10 exDb).2.workout_template_exercises.filter
        (fun r => r.workout_template_id == 1)).map (fun r => r.sort_order)
      = [1] ∧
    ((insertPlanItems impExDb 9 [("E", 10)]
        (assignSortOrders [⟨"E", some 5, none, none, none, none⟩])).workout_plan_exercises.filter
        (fun r => r.plan_id == 9)).map (fun r => r.sort_order) = [5] := by
  have h := sortOrder_renumbering_amended 1 10 exDb (by decide)
  constructor
  · have h2 := h.2.1
    have hlen : oneToN (renumberOrder 1 10 exDb).length = [1] := by decide
    rw [hlen] at h2
    exact List.perm_singleton.mp h2
  · rw [h.2.2.2.2 9 [("E", 10)] [⟨"E", some 5, none, none, none, none⟩]
      impExDb (by decide)]
    decide

/-- C9 counterexample: logging one set with a non-numeric `session_id` does
not produce a 400 response — the handler has no validation and no catch, so
the database error goes unhandled (and no row is inserted). -/
theorem postSets_malformed_not_badRequest :
    postSets ⟨.str "abc", .num 10, .num 1, .null, .null, .null⟩ exDb
      = (.unhandled, exDb) ∧
    (postSets ⟨.str "abc", .num 10, .num 1, .null, .null, .null⟩ exDb).1
      ≠ .badRequest ∧
    postSets ⟨.null, .num 10, .num 1, .null, .null, .null⟩ exDb
      = (.unhandled, exDb) := by
  refine ⟨by decide, by decide, by decide⟩

/-- C9 (amended): the validating writes do answer 400 with no database
change on malformed input — the bulk set replace on a missing/falsy id or a
non-array `sets`, the importer on a missing tsv or a bad mode — but
`POST /api/sets` performs no validation at all: input whose `session_id`
does not cast to an integer ends in an unhandled database error, never a
400, though the database is still unchanged. -/
theorem write_validation_amended :
    (∀ b : BulkBody, ∀ db : Db,
      ¬ truthy b.session_id = true ∨ ¬ truthy b.exercise_id = true ∨ b.sets = none →
      setsBulk b db = (.badRequest, db)) ∧
    (∀ dry : Bool, ∀ mode : String, ∀ db : Db,
      importPlans none dry mode db = (.badRequest, db) ∧
      importPlans (some "") dry mode db = (.badRequest, db) ∧
      (mode ≠ "create" → mode ≠ "replace" → ∀ t : String,
        importPlans (some t) dry mode db = (.badRequest, db))) ∧
    (∀ b : SetsBody, ∀ db : Db,
      (∀ n : Int, castInt b.session_id ≠ .ok (some n)) →
      (postSets b db).1 = .unhandled ∧ (postSets b db).2 = db) := by
  refine ⟨?_, ?_, ?_⟩
  · intro b db hbad
    obtain ⟨sid, eid, sets⟩ := b
    rcases sid with _ | s
    · rfl
    · rcases eid with _ | e
      · rfl
      · rcases sets with _ | L
        · rfl
        · simp only [truthy] at hbad
          have hz : s = 0 ∨ e = 0 := by
            rcases hbad with h | h | h
            · left; simpa using h
            · right; simpa using h
            · exact absurd h (by simp)
          show (if s == 0 || e == 0 then _ else _) = _
          rw [if_pos (by rcases hz with h | h <;> simp [h])]
  · intro dry mode db
    refine ⟨rfl, rfl, ?_⟩
    intro h1 h2 t
    show importPlans (some t) dry mode db = (.badRequest, db)
    rw [importPlans]
    by_cases ht : t = ""
    · rw [if_pos (by simp [ht])]
    · rw [if_neg (by simp [ht]), if_pos (by simp [h1, h2])]
  · intro b db hbad
    rcases hc : castInt b.session_id with e | v
    · constructor
      · rw [postSets, hc]
      · rw [postSets, hc]
    · match v with
      | none =>
        constructor
        · rw [postSets, hc]
        · rw [postSets, hc]
      | some n => exact absurd hc (hbad n)

/-- Concrete instantiation of `write_validation_amended`. -/
theorem write_validation_amended_witness :
    setsBulk ⟨none, some 10, some []⟩ exDb = (.badRequest, exDb) ∧
    importPlans none true "create" exDb = (.badRequest, exDb) ∧
    importPlans (some "x") true "upsert" exDb = (.badRequest, exDb) ∧
    (postSets ⟨.str "abc", .num 10, .num 1, .null, .null, .null⟩ exDb).2 = exDb := by
  have h := write_validation_amended
  refine ⟨h.1 ⟨none, some 10, some []⟩ exDb (Or.inl (by decide)), ?_, ?_, ?_⟩
  · exact (h.2.1 true "create" exDb).1
  · exact (h.2.1 true "upsert" exDb).2.2 (by decide) (by decide) "x"
  · refine (h.2.2 ⟨.str "abc", .num 10, .num 1, .null, .null, .null⟩ exDb ?_).2
    intro n hn
    have hval : castInt (JVal.str "abc")
        = .error "invalid input syntax for type integer" := rfl
    rw [hval] at hn
    exact Except.noConfusion hn

/-- C8 (amended): for every date the calendar route normalizes `week_start`
to the unique Monday m with m ≤ d ≤ m+6 (a Monday maps to itself) and
answers exactly the calendar rows with `planned_on` in [m, m+7), ordered
by `planned_on` then id; a parameter failing the digit-shape test yields
400 — but shape-matching strings that denote no real date (such as
"2024-02-30") are not rejected: JS date normalization rolls them over. -/
theorem calendar_week_normalization_amended :
    (∀ d : Int,
      getUTCDay (startOfWeekMonday d) = 1 ∧
      startOfWeekMonday d ≤ d ∧ d ≤ startOfWeekMonday d + 6 ∧
      (∀ m : Int, getUTCDay m = 1 → m ≤ d → d ≤ m + 6 → m = startOfWeekMonday d)) ∧
    (∀ s : Option String, ∀ db : Db, parseISODateOnly s = none →
      getCalendar s db = .badRequest) ∧
    (∀ s : Option String, ∀ db : Db, ∀ d : Int, parseISODateOnly s = some d →
      ∃ items : List CalendarRow,
        getCalendar s db = .okCalendar (startOfWeekMonday d) items ∧
        ((∀ c ∈ db.workout_calendar,
            (∃ p ∈ db.workout_plans, p.id = c.workout_plan_id) ∧
            (∃ t ∈ db.workout_templates, t.id = c.workout_template_id)) →
          ∀ r : CalendarRow,
            (r ∈ items ↔ r ∈ db.workout_calendar ∧
              startOfWeekMonday d ≤ r.planned_on ∧
              r.planned_on < startOfWeekMonday d + 7)) ∧
        List.Pairwise calOrder items) := by
  refine ⟨?_, ?_, ?_⟩
  · intro d
    refine ⟨?_, ?_, ?_, ?_⟩
    · show (d + (if (d + 4) % 7 = 0 then -6 else 1 - (d + 4) % 7) + 4) % 7 = 1
      by_cases h : (d + 4) % 7 = 0
      · rw [if_pos h]; omega
      · rw [if_neg h]; omega
    · show d + (if (d + 4) % 7 = 0 then -6 else 1 - (d + 4) % 7) ≤ d
      by_cases h : (d + 4) % 7 = 0
      · rw [if_pos h]; omega
      · rw [if_neg h]; omega
    · show d ≤ d + (if (d + 4) % 7 = 0 then -6 else 1 - (d + 4) % 7) + 6
      by_cases h : (d + 4) % 7 = 0
      · rw [if_pos h]; omega
      · rw [if_neg h]; omega
    · intro m hm hle hge
      show m = d + (if (d + 4) % 7 = 0 then -6 else 1 - (d + 4) % 7)
      rw [getUTCDay] at hm
      by_cases h : (d + 4) % 7 = 0
      · rw [if_pos h]; omega
      · rw [if_neg h]; omega
  · intro s db h
    rw [getCalendar, h]
  · intro s db d h
    rw [getCalendar, h]
    refine ⟨_, rfl, ?_, ?_⟩
    · intro hinteg r
      haveI : IsTotal CalendarRow calOrder := ⟨fun a b => by unfold calOrder; omega⟩
      constructor
      · intro hr
        have hr2 : r ∈ db.workout_calendar.filter _ :=
          (List.perm_insertionSort calOrder _).mem_iff.mp hr
        have hf := List.mem_filter.mp hr2
        have hcond := hf.2
        simp only [Bool.and_eq_true, decide_eq_true_eq] at hcond
        exact ⟨hf.1, hcond.1.1.1, hcond.1.1.2⟩
      · rintro ⟨hmem, h1, h2⟩
        apply (List.perm_insertionSort calOrder _).mem_iff.mpr
        apply List.mem_filter.mpr
        refine ⟨hmem, ?_⟩
        obtain ⟨⟨p, hp, hpid⟩, ⟨t, ht, htid⟩⟩ := hinteg r hmem
        simp only [Bool.and_eq_true, decide_eq_true_eq]
        refine ⟨⟨⟨h1, h2⟩, ?_⟩, ?_⟩
        · exact List.any_eq_true.mpr ⟨p, hp, by simp [hpid]⟩
        · exact List.any_eq_true.mpr ⟨t, ht, by simp [htid]⟩
    · haveI : IsTotal CalendarRow calOrder := ⟨fun a b => by unfold calOrder; omega⟩
      haveI : IsTrans CalendarRow calOrder := ⟨fun a b c hab hbc => by
        unfold calOrder at *; omega⟩
      exact List.sorted_insertionSort calOrder _

/-- C8 counterexample: "2024-02-30" is no calendar date, yet the route does
not answer 400 — the shape test passes and JS rolls the date over to
2024-03-01, whose week starts Monday 2024-02-26. -/
theorem getCalendar_accepts_rolled_over_date :
    getCalendar (some "2024-02-30") exDb ≠ .badRequest ∧
    getCalendar (some "2024-02-30") exDb
      = .okCalendar (startOfWeekMonday (jsMakeDay 2024 1 30)) [] ∧
    jsMakeDay 2024 1 30 = civilToDays 2024 3 1 := by
  refine ⟨by decide, by decide, by decide⟩

/-- Concrete instantiation of `calendar_week_normalization_amended`:
2025-01-08 (epoch day 20096, a Wednesday) normalizes to Monday 2025-01-06
(epoch day 20094). -/
theorem calendar_week_normalization_amended_witness :
    getUTCDay (startOfWeekMonday 20096) = 1 ∧
    startOfWeekMonday 20096 = 20094 ∧
    getCalendar (some "nope") exDb = .badRequest ∧
    getCalendar (some "2025-01-08") exDb = .okCalendar 20094 [] := by
  have h := calendar_week_normalization_amended
  have h1 := (h.1 20096).1
  have h2 := h.2.1 (some "nope") exDb (by decide)
  have h3 := h.2.2 (some "2025-01-08") exDb (jsMakeDay 2025 0 8) (by decide)
  obtain ⟨items, heq, hmem, hsort⟩ := h3
  refine ⟨h1, by decide, h2, ?_⟩
  rw [heq]
  have hday : startOfWeekMonday (jsMakeDay 2025 0 8) = 20094 := by decide
  rw [hday]
  have hitems : items = [] := by
    have hperm := List.perm_insertionSort calOrder
      (exDb.workout_calendar.filter (fun r =>
        decide (startOfWeekMonday (jsMakeDay 2025 0 8) ≤ r.planned_on) &&
        decide (r.planned_on < startOfWeekMonday (jsMakeDay 2025 0 8) + 7) &&
        exDb.workout_plans.any (fun p => p.id == r.workout_plan_id) &&
        exDb.workout_templates.any (fun t => t.id == r.workout_template_id)))
    have : getCalendar (some "2025-01-08") exDb
        = .okCalendar 20094 [] := by decide
    rw [this] at heq
    exact (Resp.okCalendar.injEq .. ▸ heq).2.symm
  rw [hitems]

/-- Mid-script faults on the op section of a client transaction land on
ROLLBACK, which restores the BEGIN snapshot. -/
theorem runClientAux_ops_fault {σ : Type} (ops : List (σ → σ)) (i k : Nat)
    (c snap0 : σ) (hk1 : i ≤ k) (hk2 : k < i + ops.length + 1) :
    (runClientAux (some k) ⟨c, some snap0⟩ (ops.map Stmt.op ++ [Stmt.commit]) i).db
      = snap0 := by
  induction ops generalizing i c with
  | nil =>
    have hik : k = i := by
      simp only [List.length_nil] at hk2
      omega
    rw [List.map_nil, List.nil_append, runClientAux, if_pos (by rw [hik])]
    rfl
  | cons f rest ih =>
    by_cases hik : k = i
    · rw [List.map_cons, List.cons_append, runClientAux, if_pos (by rw [hik])]
      rfl
    · rw [List.map_cons, List.cons_append, runClientAux, if_neg (by simp [hik])]
      have hlen : (f :: rest).length = rest.length + 1 := rfl
      exact ih (i + 1) (f c) (by omega) (by rw [hlen] at hk2; omega)

/-- The four handlers that check out one client are atomic: whichever
statement of BEGIN-ops-COMMIT fails, the catch block's ROLLBACK leaves the
database exactly as before, and the client is released. -/
theorem runClientTx_fault_atomic {σ : Type} (ops : List (σ → σ)) (db : σ)
    (k : Nat) (hk : k < ops.length + 2) :
    runClientTx (Stmt.begin :: (ops.map Stmt.op ++ [Stmt.commit])) (some k) db
      = (db, true) := by
  rw [runClientTx]
  cases k with
  | zero =>
    rw [runClientAux, if_pos rfl]
    rfl
  | succ k2 =>
    rw [runClientAux, if_neg (by simp)]
    show ((runClientAux (some (k2 + 1)) ⟨db, some db⟩ _ 1).db, true) = (db, true)
    rw [runClientAux_ops_fault ops 1 (k2 + 1) db db (by omega) (by omega)]

/-- C2: the two-row sort-order swap of the move handler is issued through
`pool.query`, not a checked-out client, so its BEGIN and its two UPDATEs
can land on different pooled connections.  Under the schedule that sends
BEGIN to connection 0 and the first UPDATE to connection 1, a failure of
the second UPDATE leaves the first UPDATE committed: the database differs
from the pre-request state (both rows end with sort_order 1), while the
identical script on one checked-out client rolls back cleanly. -/
theorem moveSwap_pooled_not_atomic :
    runPoolTx (moveSwapScript 101 2 100 1) [0, 1, 0, 0] 0 (some 2) exDb 2
      ≠ exDb ∧
    runPoolTx (moveSwapScript 101 2 100 1) [0, 1, 0, 0] 0 (some 2) exDb 2
      = { exDb with workout_template_exercises :=
            ([⟨100, 1, 10, 1, some 3, some "8", none⟩,
              ⟨101, 1, 11, 1, some 3, some "8", none⟩]) } ∧
    (runClientTx (moveSwapScript 101 2 100 1) (some 2) exDb).1 = exDb := by
  refine ⟨by decide, by decide, by decide⟩


end WT

